import Mathlib

/-!
Shallow embedding of the mindmap realtime reconciliation engine
(composable useMindmapRealtimeNodes): the four inbound event handlers
handleRealtimeNodesDeleted, handleRealtimeNodesBatchUpdate and
handleRealtimeNodeUpdate together with their helpers preserveEditorState,
restoreEditorState, safeRender, updateRendererDataWithoutRender,
calculateAndUpdateNodeSize and updateNodeSizeWithNewSize.

The document store (the elements collection, split here into its node part
and its edge part), the insertion order index, the editing session, the
renderer caches and the per node editor instances are explicit state.
External collaborators (the DOM, the rich text widget internals, Unicode
normalization, geometry measurement) are oracle functions carried in the
World record; the guard data (document scope, user id, save flag) live in
the Env record. Render is modeled as a counter increment; the
re-population of caches by the external layout engine is outside the
model.
-/

namespace Mindmap

/-- Screen size of a node, the rect payload field. -/
structure Rect where
  width : Int
  height : Int
deriving DecidableEq, Repr

/-- Screen position entry of the position cache. -/
structure Pos where
  x : Int
  y : Int
deriving DecidableEq, Repr

/-- Data carried by a node; absent JSON keys are none. -/
structure NodeData where
  label : Option String := none
  completed : Option Bool := none
  rect : Option Rect := none
  order : Option Int := none
  fixedWidth : Option Int := none
  fixedHeight : Option Int := none
deriving DecidableEq, Repr

/-- A node of the document store or a node patch of a payload. -/
structure Node where
  id : String
  data : NodeData
deriving DecidableEq, Repr

/-- A directed parent to child edge. -/
structure Edge where
  source : String
  target : String
deriving DecidableEq, Repr

/-- State of one mounted rich text editor widget (external capability). -/
structure EditorInst where
  isDestroyed : Bool
  hasView : Bool
  content : String
  selFrom : Nat
  selTo : Nat
  selAnchor : Nat
  selHead : Nat
  isFocused : Bool
  docSize : Nat
deriving DecidableEq, Repr

/-- Association map set: overwrite the existing entry or append a new one. -/
def mapSet {A : Type} (m : List (String × A)) (k : String) (v : A) : List (String × A) :=
  if m.any (fun p => p.1 = k) then
    m.map (fun p => if p.1 = k then (k, v) else p)
  else
    m ++ [(k, v)]

/-- Association map delete. -/
def mapDelete {A : Type} (m : List (String × A)) (k : String) : List (String × A) :=
  m.filter (fun p => p.1 ≠ k)

/-- Association map lookup, first entry wins. -/
def mapGet {A : Type} (m : List (String × A)) (k : String) : Option A :=
  (m.find? (fun p => p.1 = k)).map (fun p => p.2)

/-- First node with the given id, the find by id idiom of the source. -/
def findNode (l : List Node) (i : String) : Option Node :=
  l.find? (fun n => n.id = i)

/-- Update the first node with the given id, the findIndex and assign idiom. -/
def updateFirstNode : List Node → String → (Node → Node) → List Node
  | [], _, _ => []
  | n :: rest, i, f => if n.id = i then f n :: rest else n :: updateFirstNode rest i f

/-- Label of the first node with the given id. -/
def labelAt (l : List Node) (i : String) : Option String :=
  match findNode l i with
  | some n => n.data.label
  | none => none

/-- Completed flag of the first node with the given id. -/
def completedAt (l : List Node) (i : String) : Option Bool :=
  match findNode l i with
  | some n => n.data.completed
  | none => none

theorem findNode_updateFirstNode_self (l : List Node) (i : String) (f : Node → Node)
    (hpres : ∀ n, n.id = i → (f n).id = i) :
    findNode (updateFirstNode l i f) i =
      match findNode l i with
      | some n => some (f n)
      | none => none := by
  induction l with
  | nil => rfl
  | cons n rest ih =>
    by_cases h : n.id = i
    · have h2 : (f n).id = i := hpres n h
      simp [updateFirstNode, findNode, List.find?, h, h2]
    · simp only [updateFirstNode, if_neg h]
      simp only [findNode, List.find?] at ih ⊢
      simp [h, ih]

theorem findNode_updateFirstNode_other (l : List Node) (i j : String) (f : Node → Node)
    (hne : i ≠ j) (hpres : ∀ n, (f n).id = n.id) :
    findNode (updateFirstNode l i f) j = findNode l j := by
  induction l with
  | nil => rfl
  | cons n rest ih =>
    by_cases h : n.id = i
    · have hfid : (f n).id = n.id := hpres n
      have hnj : n.id ≠ j := fun hj => hne (h.symm.trans hj)
      have hfj : (f n).id ≠ j := by rw [hfid]; exact hnj
      simp only [updateFirstNode, if_pos h]
      simp [findNode, List.find?, hfj, hnj]
    · simp only [updateFirstNode, if_neg h]
      simp only [findNode, List.find?] at ih ⊢
      by_cases h2 : n.id = j <;> simp [h2, ih]

theorem findNode_append (l1 l2 : List Node) (i : String) :
    findNode (l1 ++ l2) i =
      match findNode l1 i with
      | some n => some n
      | none => findNode l2 i := by
  induction l1 with
  | nil => simp [findNode]
  | cons n rest ih =>
    by_cases h : n.id = i <;> simp_all [findNode, List.find?, h]

theorem mapGet_mapDelete_self {A : Type} (m : List (String × A)) (k : String) :
    mapGet (mapDelete m k) k = none := by
  induction m with
  | nil => rfl
  | cons p rest ih =>
    by_cases h : p.1 = k <;> simp_all [mapGet, mapDelete, List.find?, List.filter, h]

theorem mapGet_filter_none {A : Type} (m : List (String × A)) (p : String × A → Bool)
    (k : String) (h : ∀ q ∈ m, q.1 = k → p q = false) :
    mapGet (m.filter p) k = none := by
  induction m with
  | nil => rfl
  | cons q rest ih =>
    have hrest : mapGet (rest.filter p) k = none :=
      ih (fun r hr hk => h r (List.mem_cons_of_mem _ hr) hk)
    simp only [List.filter]
    by_cases hp : p q = true
    · have hq : q.1 ≠ k := by
        intro hk
        have := h q (List.mem_cons_self _ _) hk
        simp [this] at hp
      simp only [hp, if_true]
      simpa [mapGet, List.find?, hq] using hrest
    · simp only [Bool.not_eq_true] at hp
      simp only [hp]
      exact hrest

theorem mapGet_none_of_filter {A : Type} (m : List (String × A)) (p : String × A → Bool)
    (k : String) (h : mapGet m k = none) :
    mapGet (m.filter p) k = none := by
  induction m with
  | nil => rfl
  | cons q rest ih =>
    simp only [mapGet, List.find?] at h
    by_cases hq : q.1 = k
    · simp [hq] at h
    · simp only [List.filter]
      have hm : mapGet rest k = none := by
        simp only [mapGet]
        simpa [hq] using h
      by_cases hp : p q = true
      · simp only [hp, if_true]
        simpa [mapGet, List.find?, hq] using ih hm
      · simp only [Bool.not_eq_true] at hp
        simp only [hp]
        exact ih hm

theorem mapGet_mapDelete_none {A : Type} (m : List (String × A)) (k j : String)
    (h : mapGet m j = none) : mapGet (mapDelete m k) j = none :=
  mapGet_none_of_filter m _ j h

/-- Guard environment of the handlers: identity of the local document and
user together with the in flight save flag. -/
structure Env where
  entityName : String
  currentUserId : String
  isSaving : Bool
deriving DecidableEq, Repr

/-- External world of the handlers: the clock and the collaborator
capabilities (Unicode NFC normalization, the DOM rebuild for image heavy
markup, geometry estimation and measurement, the image height join, and
the post render widget mount schedule polled by restoreEditorState). -/
structure World where
  now : Int
  nfc : String → String
  multiImageRebuild : String → String
  estimateNodeSize : Node → Rect
  calcHeightWithImages : String → Int → Int
  domScrollSize : String → Rect
  postRenderSched : String → Nat → Option EditorInst

/-- Local editing session (editingNode, selectedNode, editingStartTime and
the dirty set changedNodeIds of the composable). -/
structure Session where
  editingNode : Option String
  selectedNode : Option String
  editingStartTime : Option Int
  changedNodeIds : List String
deriving DecidableEq, Repr

/-- Document store: the node part and the edge part of elements.value plus
the insertion order index nodeCreationOrder. -/
structure Store where
  nodes : List Node
  edges : List Edge
  nodeCreationOrder : List (String × Int)
deriving DecidableEq, Repr

/-- The d3 renderer collaborator: its own node and edge arrays, the size
and position caches, the mounted editor instances, the on screen rect of
each node group, and counters for its render and setData entry points. -/
structure Renderer where
  nodes : List Node
  edges : List Edge
  nodeSizeCache : List (String × Rect)
  positions : List (String × Pos)
  editors : List (String × EditorInst)
  domRects : List (String × Rect)
  renderCount : Nat
  setDataCount : Nat
deriving DecidableEq, Repr

/-- Whole reconciliation state threaded through a handler invocation. -/
structure St where
  store : Store
  sess : Session
  renderer : Renderer
  snapshotCount : Nat
deriving DecidableEq, Repr

/-- The renderer render entry point. Only the invocation is modeled; the
re-layout and cache refill it performs belong to the external engine. -/
def renderStep (r : Renderer) : Renderer :=
  { r with renderCount := r.renderCount + 1 }

/-- The renderer setData entry point (data replacement; the automatic
render that setData performs internally is already counted by the explicit
safeRender calls that follow it in the handlers). -/
def setDataR (r : Renderer) (ns : List Node) (es : List Edge) : Renderer :=
  { r with nodes := ns, edges := es, setDataCount := r.setDataCount + 1 }

/-- Helper updateRendererDataWithoutRender: poke the node and edge arrays
of the renderer directly, bypassing setData and render. -/
def updateRendererDataWithoutRender (r : Renderer) (ns : List Node) (es : List Edge) : Renderer :=
  { r with nodes := ns, edges := es }

/-- Editor state snapshot taken by preserveEditorState. -/
structure PreservedState where
  nodeId : String
  isFocused : Bool
  selFrom : Nat
  selTo : Nat
  selAnchor : Nat
  selHead : Nat
  content : String
deriving DecidableEq, Repr

/-- Helper preserveEditorState: snapshot focus flag and selection offsets
of the editor of the given node, or none when the widget is missing,
destroyed or has no view. -/
def preserveEditorState (r : Renderer) (nodeId : Option String) : Option PreservedState :=
  match nodeId with
  | none => none
  | some nid =>
    if nid = "" then none
    else
      match mapGet r.editors nid with
      | none => none
      | some ed =>
        if ed.isDestroyed ∨ ¬ ed.hasView then none
        else some { nodeId := nid, isFocused := ed.isFocused, selFrom := ed.selFrom,
                    selTo := ed.selTo, selAnchor := ed.selAnchor, selHead := ed.selHead,
                    content := ed.content }

/-- Bounded polling loop of restoreEditorState: up to maxAttempts polls of
the asynchronously remounting widget, first valid instance wins. -/
def findEditorWithin (sched : Nat → Option EditorInst) (maxAttempts : Nat) : Option EditorInst :=
  (List.range maxAttempts).findSome? (fun k =>
    match sched k with
    | some ed => if ¬ ed.isDestroyed ∧ ed.hasView then some ed else none
    | none => none)

/-- Focus reassertion loop of restoreEditorState: up to budget focus
commands while the editor is not focused. The focus command of the
external widget is modeled as setting the focused flag. -/
def applyFocusRetries (ed : EditorInst) : Nat → EditorInst
  | 0 => ed
  | Nat.succ k =>
    if ed.isFocused then ed
    else applyFocusRetries { ed with isFocused := true } k

/-- Helper restoreEditorState: await the widget with bounded retries, clamp
the preserved selection into the new document bounds, reapply it when the
clamped range is non empty, and reapply focus when it was focused. Returns
the resulting editor instance, or none when the widget never reappeared. -/
def restoreEditorState (sched : Nat → Option EditorInst) (ps : PreservedState) :
    Option EditorInst :=
  match findEditorWithin sched 10 with
  | none => none
  | some ed0 =>
    let docSize := ed0.docSize
    let validFrom := min ps.selFrom docSize
    let validTo := min ps.selTo docSize
    let ed1 := if validFrom ≠ validTo ∧ validTo ≤ docSize then
        { ed0 with selFrom := validFrom, selTo := validTo,
                   selAnchor := validFrom, selHead := validTo }
      else ed0
    let ed2 := if ps.isFocused then applyFocusRetries ed1 3 else ed1
    some ed2

/-- Helper safeRender: skip the render when a node is being edited and the
call is not forced; on a forced render with an active edit, preserve the
editor state, render, and restore it afterwards. Returns the renderer and
whether a render happened. -/
def safeRenderR (w : World) (sess : Session) (r : Renderer) (force : Bool) :
    Renderer × Bool :=
  let hasAnyNodeBeingEdited := sess.editingNode.isSome
  if hasAnyNodeBeingEdited ∧ ¬ force then (r, false)
  else
    let preserved := if force ∧ hasAnyNodeBeingEdited then
        preserveEditorState r sess.editingNode
      else none
    let r1 := renderStep r
    let r2 := match preserved with
      | none => r1
      | some ps =>
        match restoreEditorState (w.postRenderSched ps.nodeId) ps with
        | none => r1
        | some ed => { r1 with editors := mapSet r1.editors ps.nodeId ed }
    (r2, true)

theorem safeRenderR_renderCount (w : World) (sess : Session) (r : Renderer) :
    ((safeRenderR w sess r true).1).renderCount = r.renderCount + 1 := by
  simp only [safeRenderR, renderStep]
  split <;> simp_all
  split <;> simp_all
  split <;> simp_all

theorem safeRenderR_soft_skips (w : World) (sess : Session) (r : Renderer)
    (h : sess.editingNode.isSome) :
    safeRenderR w sess r false = (r, false) := by
  simp [safeRenderR, h]

/-- Child targets of a node: edges of the element collection that have
truthy endpoints and the given source, as in clearChildrenPositions. -/
def childTargets (es : List Edge) (v : String) : List String :=
  (es.filter (fun e => e.source ≠ "" ∧ e.target ≠ "" ∧ e.source = v)).map (fun e => e.target)

/-- Recursive subtree walk of clearChildrenPositions: every strict
descendant of v reachable through child edges. The source recursion has no
fuel and terminates only on acyclic edge collections; the fuel here covers
every duplicate free path, so on acyclic inputs the result agrees. -/
def descendantsAux (es : List Edge) : Nat → String → List String
  | 0, _ => []
  | Nat.succ n, v =>
    (childTargets es v).foldr (fun c acc => c :: (descendantsAux es n c ++ acc)) []

/-- Payload of a NodesDeleted event. -/
structure DeletePayload where
  entity_name : String
  modified_by : String
  node_ids : List String
deriving DecidableEq, Repr

/-- Handler handleRealtimeNodesDeleted: guards (document scope, self echo,
in flight save), clearing of the local selection and edit state when hit,
removal of the nodes, pruning of edges touching a removed id, dropping the
insertion order entries, a forced snapshot request, and a render that is
suppressed while an edit is active. -/
def handleRealtimeNodesDeleted (env : Env) (w : World) (p : DeletePayload) (st : St) : St :=
  if p.entity_name ≠ env.entityName then st
  else if p.modified_by = env.currentUserId then st
  else if env.isSaving then st
  else
    let nodeIdsToDelete := p.node_ids
    if nodeIdsToDelete.isEmpty then st
    else
      let editHit := match st.sess.editingNode with
        | some e => nodeIdsToDelete.contains e
        | none => false
      let selHit := match st.sess.selectedNode with
        | some s => nodeIdsToDelete.contains s
        | none => false
      let sess1 := if editHit || selHit then
          { st.sess with editingNode := none, selectedNode := none }
        else st.sess
      let newNodes := st.store.nodes.filter (fun n => ¬ nodeIdsToDelete.contains n.id)
      let newEdges := st.store.edges.filter (fun e =>
        ¬ nodeIdsToDelete.contains e.source ∧ ¬ nodeIdsToDelete.contains e.target)
      let order1 := nodeIdsToDelete.foldl (fun acc i => mapDelete acc i)
        st.store.nodeCreationOrder
      let snap1 := st.snapshotCount + 1
      let store1 : Store := { nodes := newNodes, edges := newEdges, nodeCreationOrder := order1 }
      let r1 := if sess1.editingNode.isSome then
          updateRendererDataWithoutRender st.renderer newNodes newEdges
        else
          (safeRenderR w sess1 (setDataR st.renderer newNodes newEdges) false).1
      { store := store1, sess := sess1, renderer := r1, snapshotCount := snap1 }

/-- Rect write through together with the fixedWidth and fixedHeight hints. -/
def applyRectFix (d : NodeData) (rc : Rect) : NodeData :=
  { d with rect := some rc, fixedWidth := some rc.width, fixedHeight := some rc.height }

/-- Field patch applied directly to a d3 node by the batch handler when it
updates data without rendering: label only when truthy, completed when
present, rect together with the fixed size hints when present. -/
def d3BatchPatch (un : Node) (d3 : Node) : Node :=
  let d := d3.data
  let d := match un.data.label with
    | some l => if l ≠ "" then { d with label := some l } else d
    | none => d
  let d := match un.data.completed with
    | some c => { d with completed := some c }
    | none => d
  let d := match un.data.rect with
    | some rc => applyRectFix d rc
    | none => d
  { d3 with data := d }

/-- Payload of a NodesBatchUpdated event. -/
structure BatchPayload where
  entity_name : String
  modified_by : String
  nodes : List Node
  edges : Option (List Edge)
deriving DecidableEq, Repr

/-- Out of band editor mount for a node added by a batch: when the editor
container of the node is empty, mount a widget initialized with the node
label and push the label into it. -/
def mountNewNodeEditorB (r : Renderer) (nn : Node) : Renderer :=
  match mapGet r.editors nn.id with
  | some _ => r
  | none =>
    let text := (nn.data.label).getD ""
    let ed : EditorInst := { isDestroyed := false, hasView := true, content := text,
                             selFrom := 0, selTo := 0, selAnchor := 0, selHead := 0,
                             isFocused := false, docSize := text.length }
    { r with editors := mapSet r.editors nn.id ed }

/-- Handler handleRealtimeNodesBatchUpdate: guards, the whole batch is
dropped when every batch id is the edited or selected node, existing nodes
are overwritten by the top level object spread of their patch, new nodes
are appended, edges of the payload replace prior edges sharing a target,
caches are invalidated (positions transitively over the subtree of each
payload edge target), and the render decision depends on whether the batch
brings a brand new node and whether it touches the edited node. -/
def handleRealtimeNodesBatchUpdate (env : Env) (w : World) (p : BatchPayload) (st : St) : St :=
  if p.entity_name ≠ env.entityName then st
  else if p.modified_by = env.currentUserId then st
  else if env.isSaving then st
  else
    let remoteNodeUpdates := p.nodes
    if remoteNodeUpdates.isEmpty then st
    else
      let editingNodeId := st.sess.editingNode
      let selectedNodeId := st.sess.selectedNode
      let remoteNodeIds := remoteNodeUpdates.map (fun n => n.id)
      if (¬ remoteNodeIds.isEmpty) ∧
          remoteNodeIds.all (fun i => decide (editingNodeId = some i ∨ selectedNodeId = some i)) then
        st
      else
        let localNodeIds := st.store.nodes.map (fun n => n.id)
        let hasNewNodes := remoteNodeUpdates.any (fun n => ¬ localNodeIds.contains n.id)
        let order1 := st.store.nodes.foldl (fun acc ln =>
            match remoteNodeUpdates.find? (fun rn => rn.id = ln.id) with
            | some rn =>
              match rn.data.order with
              | some o => mapSet acc ln.id o
              | none => acc
            | none => acc) st.store.nodeCreationOrder
        let updatedNodes0 := st.store.nodes.map (fun ln =>
            match remoteNodeUpdates.find? (fun rn => rn.id = ln.id) with
            | some rn => rn
            | none => ln)
        let newNodes := remoteNodeUpdates.filter (fun rn => ¬ localNodeIds.contains rn.id)
        let order2 := newNodes.foldl (fun acc nn =>
            match nn.data.order with
            | some o => mapSet acc nn.id o
            | none => acc) order1
        let updatedNodes := updatedNodes0 ++ newNodes
        let updatedEdges := match p.edges with
          | some es =>
            let targets := (es.map (fun e => e.target)).filter (fun t => t ≠ "")
            (st.store.edges.filter (fun e => ¬ targets.contains e.target)) ++ es
          | none => st.store.edges
        let snap1 := if hasNewNodes then st.snapshotCount + 1 else st.snapshotCount
        let store1 : Store := { nodes := updatedNodes, edges := updatedEdges,
                                nodeCreationOrder := order2 }
        let sizeCache1 := remoteNodeUpdates.foldl (fun c n => mapDelete c n.id)
          st.renderer.nodeSizeCache
        let r := { st.renderer with nodeSizeCache := sizeCache1 }
        let r := match p.edges with
          | some es =>
            if ¬ es.isEmpty then
              let clearIds := es.foldl (fun acc e =>
                acc ++ (e.target :: descendantsAux updatedEdges updatedEdges.length e.target)) []
              { r with positions := r.positions.filter (fun q => ¬ clearIds.contains q.1) }
            else r
          | none => r
        let currentEdges := updatedEdges.filter (fun e => e.source ≠ "" ∧ e.target ≠ "")
        let hasAnyNodeBeingEdited := editingNodeId.isSome
        let batchContainsEditingNode :=
          (match editingNodeId with
            | some e => remoteNodeIds.contains e
            | none => false) ||
          (match selectedNodeId with
            | some s => remoteNodeIds.contains s
            | none => false)
        let r2 :=
          if hasAnyNodeBeingEdited ∧ (¬ hasNewNodes) ∧ batchContainsEditingNode then
            let ra := updateRendererDataWithoutRender r updatedNodes currentEdges
            let ns2 := remoteNodeUpdates.foldl (fun ns un =>
                updateFirstNode ns un.id (d3BatchPatch un)) ra.nodes
            { ra with nodes := ns2 }
          else if hasAnyNodeBeingEdited ∧ hasNewNodes then
            (safeRenderR w st.sess (setDataR r updatedNodes currentEdges) true).1
          else
            (safeRenderR w st.sess (setDataR r updatedNodes currentEdges) false).1
        let r3 := newNodes.foldl (fun rr nn => mountNewNodeEditorB rr nn) r2
        { store := store1, sess := st.sess, renderer := r3, snapshotCount := snap1 }

/-- Option valued field of an object spread: the right key wins when present. -/
def orElseO {A : Type} (r o : Option A) : Option A :=
  match r with
  | some v => some v
  | none => o

/-- JavaScript object spread of two data objects: keys of the patch
overwrite keys of the original. -/
def spreadData (o r : NodeData) : NodeData :=
  { label := orElseO r.label o.label,
    completed := orElseO r.completed o.completed,
    rect := orElseO r.rect o.rect,
    order := orElseO r.order o.order,
    fixedWidth := orElseO r.fixedWidth o.fixedWidth,
    fixedHeight := orElseO r.fixedHeight o.fixedHeight }

/-- Truthy or chain on labels: the first label wins when it is a non empty
string, otherwise the second operand. -/
def truthyOr (a b : Option String) : Option String :=
  match a with
  | some l => if l ≠ "" then some l else b
  | none => b

/-- Truthiness of an optional number: present and non zero. -/
def truthyIntOpt (o : Option Int) : Bool :=
  match o with
  | some v => v ≠ 0
  | none => false

/-- Store patch applied when only the completed flag may be merged into a
node that is edited or selected: completed always, rect when carried. -/
def completedOnlyPatch (un : Node) (old : Node) : Node :=
  let d0 := old.data
  let d1 := { d0 with completed := un.data.completed }
  let d2 := match un.data.rect with
    | some rc => { d1 with rect := some rc }
    | none => d1
  { old with data := d2 }

/-- Store patch applied to the edited node when it has no local changes:
the whole data object is spread merged, but the label currently under edit
is kept when truthy. -/
def mergeKeepEditedLabel (un : Node) (old : Node) : Node :=
  let merged := spreadData old.data un.data
  let lbl := match old.data.label with
    | some s => if s ≠ "" then some s else merged.label
    | none => merged.label
  { old with data := { merged with label := lbl } }

/-- Whitespace only string, the labelToSet.trim equal to empty check. -/
def blankString (s : String) : Bool :=
  s.data.all (fun c => c = ' ' ∨ c = '\t' ∨ c = '\n' ∨ c = '\r')

/-- Occurrences of a character pattern in a character list. -/
def occurrencesAux (pat : List Char) : List Char → Nat
  | [] => 0
  | c :: rest => (if List.isPrefixOf pat (c :: rest) then 1 else 0) + occurrencesAux pat rest

/-- Number of img tags in a markup string. -/
def countImgTags (s : String) : Nat :=
  occurrencesAux "<img".data s.data

/-- Whether a markup string carries embedded images. -/
def hasImagesIn (s : String) : Bool :=
  decide (countImgTags s > 0) || decide (occurrencesAux "image-wrapper".data s.data > 0)

/-- Node update writing a rect together with the fixed size hints. -/
def rectFixNode (newSize : Rect) (n : Node) : Node :=
  { n with data := applyRectFix n.data newSize }

/-- Deferred helper updateNodeSizeWithNewSize: re-checks the editing
session at resumption and abandons the write when the node is now the
active edit node; otherwise writes the size cache, the node rect (store
and renderer), the on screen geometry, drops the position entry, and
re-renders only when no node is being edited. -/
def updateNodeSizeWithNewSize (w : World) (st : St) (nodeId : String) (newSize : Rect) : St :=
  if st.sess.editingNode = some nodeId then st
  else
    let r0 := st.renderer
    let r1 := { r0 with nodeSizeCache := mapSet r0.nodeSizeCache nodeId newSize }
    let r2 := { r1 with nodes := updateFirstNode r1.nodes nodeId (rectFixNode newSize) }
    let r3 := { r2 with domRects := mapSet r2.domRects nodeId newSize }
    let stNodes := updateFirstNode st.store.nodes nodeId (rectFixNode newSize)
    let r4 := { r3 with positions := mapDelete r3.positions nodeId }
    if st.sess.editingNode.isSome then
      { st with store := { st.store with nodes := stNodes }, renderer := r4 }
    else
      let r5 := setDataR r4 stNodes st.store.edges
      let r6 := { r5 with nodes := updateFirstNode r5.nodes nodeId (rectFixNode newSize) }
      let r7 := (safeRenderR w st.sess r6 false).1
      { st with store := { st.store with nodes := stNodes }, renderer := r7 }

/-- Deferred helper calculateAndUpdateNodeSize: no-ops when the node is now
the active edit node, when its editor is missing or destroyed, or when the
node has no truthy label; uses the payload rect when it carries a truthy
size, otherwise measures (images force the maximal width, plain text is
measured through the DOM oracle with the min, max and padding clamps of
the source) and hands the result to updateNodeSizeWithNewSize. -/
def calculateAndUpdateNodeSize (w : World) (st : St) (nodeId : String) : St :=
  if st.sess.editingNode = some nodeId then st
  else
    match mapGet st.renderer.editors nodeId with
    | none => st
    | some ed =>
      if ed.isDestroyed then st
      else
        match findNode st.store.nodes nodeId with
        | none => st
        | some n =>
          match n.data.label with
          | none => st
          | some lbl =>
            if blankString lbl then st
            else
              let dims := w.domScrollSize lbl
              let calcW := max (dims.width + 32) 130
              let finalW := if calcW > 400 then 400 else calcW
              let measured : Rect :=
                if hasImagesIn lbl then { width := 400, height := 43 }
                else { width := finalW, height := max dims.height 43 }
              match n.data.rect with
              | some rc =>
                if rc.width ≠ 0 ∧ rc.height ≠ 0 then
                  updateNodeSizeWithNewSize w st nodeId rc
                else
                  updateNodeSizeWithNewSize w st nodeId measured
              | none =>
                updateNodeSizeWithNewSize w st nodeId measured

/-- Field patch of the main d3 data update pass of handleRealtimeNodeUpdate:
raw label assignment when the node is neither locally edited nor selected
and not in the dirty set, rect write through when truthy, completed merge,
and the clearing of stale fixed size hints. -/
def d3MainPatch (un : Node) (isLocalEditing hasLocal2 : Bool) (rectOk : Option Rect)
    (d3 : Node) : Node :=
  let d0 := d3.data
  let d1 := if (¬ isLocalEditing) ∧ (¬ hasLocal2) then { d0 with label := un.data.label } else d0
  let d2 := match rectOk with
    | some rc => applyRectFix d1 rc
    | none => d1
  let d3d := match un.data.completed with
    | some c => { d2 with completed := some c }
    | none => d2
  let d4 := if truthyIntOpt d3d.fixedWidth || truthyIntOpt d3d.fixedHeight then
      { d3d with fixedWidth := none, fixedHeight := none }
    else d3d
  { d3 with data := d4 }

/-- The d3 data update block of handleRealtimeNodeUpdate (size cache and on
screen rect write through plus the field patch), applied only when the d3
node exists. -/
def d3UpdateBlock (r : Renderer) (un : Node) (editing selected : Option String)
    (changed : List String) : Renderer :=
  match findNode r.nodes un.id with
  | none => r
  | some _ =>
    let isLocalEditing : Bool :=
      decide (editing = some un.id) || decide (selected = some un.id)
    let hasLocal2 : Bool := changed.contains un.id
    let rectOk : Option Rect := match un.data.rect with
      | some rc => if rc.width ≠ 0 ∧ rc.height ≠ 0 then some rc else none
      | none => none
    let r1 := match rectOk with
      | some rc =>
        { r with nodeSizeCache := mapSet r.nodeSizeCache un.id rc,
                 domRects := mapSet r.domRects un.id rc }
      | none => r
    { r1 with nodes := updateFirstNode r1.nodes un.id (d3MainPatch un isLocalEditing hasLocal2 rectOk) }

/-- Field patch of the branch where the updated node is the active edit
node: raw label assignment unless selected or locally changed, completed
merge, rect together with the fixed hints. -/
def d3EditedPatchRaw (un : Node) (isNodeSelected hasLocalChanges : Bool) (d3 : Node) : Node :=
  let d0 := d3.data
  let d1 := if (¬ isNodeSelected) ∧ (¬ hasLocalChanges) then { d0 with label := un.data.label } else d0
  let d2 := match un.data.completed with
    | some c => { d1 with completed := some c }
    | none => d1
  let d3d := match un.data.rect with
    | some rc => applyRectFix d2 rc
    | none => d2
  { d3 with data := d3d }

/-- Field patch of the no render branch for an existing edited node: label
with truthy fallback, completed merge, rect with the fixed hints. -/
def d3EditedPatchFallback (un : Node) (isNodeSelected hasLocalChanges : Bool) (d3 : Node) : Node :=
  let d0 := d3.data
  let d1 := if (¬ isNodeSelected) ∧ (¬ hasLocalChanges) then
      { d0 with label := truthyOr un.data.label d0.label }
    else d0
  let d2 := match un.data.completed with
    | some c => { d1 with completed := some c }
    | none => d1
  let d3d := match un.data.rect with
    | some rc => applyRectFix d2 rc
    | none => d2
  { d3 with data := d3d }

/-- Post render d3 data fix of handleRealtimeNodeUpdate: after setData may
have rebuilt the d3 nodes, push the event fields back in (label with a
truthy fallback when the node is neither edited nor selected). -/
def postRenderD3Fix (un : Node) (isNodeBeingEdited isNodeSelected : Bool) (d3 : Node) : Node :=
  let d0 := d3.data
  let d1 := if (¬ isNodeBeingEdited) ∧ (¬ isNodeSelected) then
      { d0 with label := truthyOr un.data.label d0.label }
    else d0
  let d2 := match un.data.completed with
    | some c => { d1 with completed := some c }
    | none => d1
  let d3d := match un.data.rect with
    | some rc => applyRectFix d2 rc
    | none => d2
  { d3 with data := d3d }

/-- The label a mounted editor content write will use: the event label, a
fallback to the stored d3 label when the event one is missing or empty,
then Unicode NFC normalization of a non empty result. -/
def effectiveRemoteLabel (w : World) (remoteLabel d3Label : Option String) : String :=
  let l0 := remoteLabel.getD ""
  let l1 := if l0 = "" then d3Label.getD "" else l0
  if l1 ≠ "" then w.nfc l1 else l1

/-- Content write step for an already mounted editor: effective label as
above, empty or whitespace only effective labels skip the write, identical
content skips the write only while the node is being edited, and content
with more than two images goes through the DOM rebuild. Returns the editor
and whether a write happened. -/
def setContentForMountedEditor (w : World) (remoteLabel d3Label : Option String)
    (isNodeBeingEdited : Bool) (ed : EditorInst) : EditorInst × Bool :=
  let l2 := effectiveRemoteLabel w remoteLabel d3Label
  if l2 = "" ∨ blankString l2 then (ed, false)
  else
    if (if ed.content ≠ "" then w.nfc ed.content else "") = w.nfc l2 ∧ isNodeBeingEdited then
      (ed, false)
    else
      let newContent := if countImgTags l2 > 2 then w.multiImageRebuild l2 else l2
      ({ ed with content := newContent, docSize := newContent.length }, true)

/-- The deferred content write phase of handleRealtimeNodeUpdate: skipped
entirely when the updated node is the active edit node with local changes;
when the editor container is empty a widget is mounted (only when a d3
node exists) and the event label, normalized, is pushed unless empty or
whitespace only; when the editor is mounted the fallback step above runs,
followed by a size recalculation when the node is not being edited. -/
def setContentPhase (w : World) (st : St) (remoteNode : Node) (isNodeBeingEdited : Bool) : St :=
  if isNodeBeingEdited ∧ st.sess.changedNodeIds.contains remoteNode.id then st
  else
    match mapGet st.renderer.editors remoteNode.id with
    | none =>
      match findNode st.renderer.nodes remoteNode.id with
      | none => st
      | some nodeData =>
        let text := (truthyOr remoteNode.data.label nodeData.data.label).getD ""
        let ed0 : EditorInst := { isDestroyed := false, hasView := true, content := text,
                                  selFrom := 0, selTo := 0, selAnchor := 0, selHead := 0,
                                  isFocused := false, docSize := text.length }
        let r1 := { st.renderer with editors := mapSet st.renderer.editors remoteNode.id ed0 }
        let l0 := (remoteNode.data.label).getD ""
        let l1 := if l0 ≠ "" then w.nfc l0 else l0
        if l1 = "" ∨ blankString l1 then { st with renderer := r1 }
        else
          let ed1 := { ed0 with content := l1, docSize := l1.length }
          { st with renderer := { r1 with editors := mapSet r1.editors remoteNode.id ed1 } }
    | some ed =>
      let d3l := match findNode st.renderer.nodes remoteNode.id with
        | some n => n.data.label
        | none => none
      let res := setContentForMountedEditor w remoteNode.data.label d3l isNodeBeingEdited ed
      let r1 := { st.renderer with editors := mapSet st.renderer.editors remoteNode.id res.1 }
      let st1 := { st with renderer := r1 }
      if res.2 ∧ ¬ (st.sess.editingNode = some remoteNode.id) then
        calculateAndUpdateNodeSize w st1 remoteNode.id
      else st1

/-- Node update writing only the rect field. -/
def rectOnlyNode (newSize : Rect) (n : Node) : Node :=
  { n with data := { n.data with rect := some newSize } }

/-- The trailing deferred size pass of handleRealtimeNodeUpdate: skipped
when the node is being edited, its editor is missing or destroyed, or the
label is empty; image bearing content waits on the per image load or error
join and takes the maximal width with the measured image height, plain
content is estimated then corrected from the DOM scroll height; the result
is written to the size cache, the rects, the geometry, the position entry
is dropped, and a soft render runs only when nothing is edited. -/
def sizeRecalcTail (w : World) (st : St) (remoteNode : Node) : St :=
  if st.sess.editingNode = some remoteNode.id then st
  else
    match mapGet st.renderer.editors remoteNode.id with
    | none => st
    | some ed =>
      if ed.isDestroyed then st
      else
        match remoteNode.data.label with
        | none => st
        | some lbl =>
          if blankString lbl then st
          else
            let base : Rect := if hasImagesIn lbl then { width := 400, height := 43 }
              else w.estimateNodeSize remoteNode
            let h : Int := if hasImagesIn lbl then w.calcHeightWithImages lbl base.width
              else max (w.domScrollSize lbl).height 43
            let newSize : Rect := { width := base.width, height := h }
            let r1 := { st.renderer with nodeSizeCache := mapSet st.renderer.nodeSizeCache remoteNode.id newSize }
            let r2 := { r1 with nodes := updateFirstNode r1.nodes remoteNode.id (rectOnlyNode newSize) }
            let r3 := { r2 with domRects := mapSet r2.domRects remoteNode.id newSize }
            let stNodes := updateFirstNode st.store.nodes remoteNode.id (rectOnlyNode newSize)
            let r4 := { r3 with positions := mapDelete r3.positions remoteNode.id }
            if st.sess.editingNode.isSome then
              let r5 := { r4 with nodes := updateFirstNode r4.nodes remoteNode.id (rectFixNode newSize) }
              { st with store := { st.store with nodes := stNodes }, renderer := r5 }
            else
              let r5 := setDataR r4 stNodes st.store.edges
              let r6 := (safeRenderR w st.sess r5 false).1
              { st with store := { st.store with nodes := stNodes }, renderer := r6 }

/-- The render decision and deferred phases of handleRealtimeNodeUpdate for
an event that was not suppressed: a brand new node forces a render even
while another node is edited, an existing non edited node is force
rendered and the d3 data re-synced afterwards, and with no active edit a
soft render runs; then the content write phase and the trailing size pass. -/
def renderAndContentPhases (w : World) (st3 : St) (remoteNode : Node) (elementFound : Bool)
    (isNodeBeingEdited isNodeSelected hasLocalChanges : Bool) : St :=
  let hasAny := st3.sess.editingNode.isSome
  let isNewNode : Bool := ¬ elementFound
  let st4 :=
    if hasAny ∧ (¬ isNewNode) ∧ isNodeBeingEdited then
      let ns := updateFirstNode st3.renderer.nodes remoteNode.id
        (d3EditedPatchFallback remoteNode isNodeSelected hasLocalChanges)
      { st3 with renderer := { st3.renderer with nodes := ns } }
    else if hasAny ∧ isNewNode then
      let r := setDataR st3.renderer st3.store.nodes st3.store.edges
      { st3 with renderer := (safeRenderR w st3.sess r true).1 }
    else if hasAny ∧ (¬ isNewNode) ∧ (¬ isNodeBeingEdited) then
      let r := setDataR st3.renderer st3.store.nodes st3.store.edges
      let r1 := (safeRenderR w st3.sess r true).1
      let ns := updateFirstNode r1.nodes remoteNode.id
        (postRenderD3Fix remoteNode isNodeBeingEdited isNodeSelected)
      { st3 with renderer := { r1 with nodes := ns } }
    else
      let r := setDataR st3.renderer st3.store.nodes st3.store.edges
      let r1 := (safeRenderR w st3.sess r false).1
      let ns := updateFirstNode r1.nodes remoteNode.id
        (postRenderD3Fix remoteNode isNodeBeingEdited isNodeSelected)
      { st3 with renderer := { r1 with nodes := ns } }
  let st5 := setContentPhase w st4 remoteNode isNodeBeingEdited
  sizeRecalcTail w st5 remoteNode

/-- Payload of a NodeUpdated event. -/
structure UpdatePayload where
  entity_name : String
  modified_by : String
  node_id : String
  node : Option Node
  edge : Option Edge
deriving DecidableEq, Repr

/-- Handler handleRealtimeNodeUpdate: guards (document scope, self echo,
and the in flight save guard that only applies when the target is the
active edit node), the store element merge honoring the edit and selection
state, the insertion order and snapshot side effects, the suppressed early
return for an edited target outside the grace window (which merges only
the completed flag into the d3 data), the single parent edge replacement,
the cache invalidation (positions transitively over the subtree of the
updated node when an edge is carried), the d3 data update, the no render
return when the target is the active edit node, and otherwise the render,
content write and size recalculation phases. -/
def handleRealtimeNodeUpdate (env : Env) (w : World) (p : UpdatePayload) (st : St) : St :=
  if p.entity_name ≠ env.entityName then st
  else if p.modified_by = env.currentUserId then st
  else if env.isSaving ∧ st.sess.editingNode = some p.node_id then st
  else
    match p.node with
    | none => st
    | some remoteNode =>
      let editingNodeId := st.sess.editingNode
      let selectedNodeId := st.sess.selectedNode
      let elementFound : Bool := st.store.nodes.any (fun n => n.id = remoteNode.id)
      let isNodeBeingEdited : Bool := decide (editingNodeId = some remoteNode.id)
      let isNodeSelected : Bool := decide (selectedNodeId = some remoteNode.id) && ! isNodeBeingEdited
      let hasLocalChanges : Bool := st.sess.changedNodeIds.contains remoteNode.id && isNodeBeingEdited
      let shouldUpdateElements : Bool := ! isNodeBeingEdited && ! isNodeSelected
      let shouldUpdateCompletedOnly : Bool :=
        remoteNode.data.completed.isSome && (isNodeBeingEdited || isNodeSelected)
      let nodes1 :=
        if elementFound then
          if shouldUpdateElements then
            updateFirstNode st.store.nodes remoteNode.id (fun _ => remoteNode)
          else if shouldUpdateCompletedOnly then
            updateFirstNode st.store.nodes remoteNode.id (completedOnlyPatch remoteNode)
          else if ! hasLocalChanges then
            updateFirstNode st.store.nodes remoteNode.id (mergeKeepEditedLabel remoteNode)
          else st.store.nodes
        else st.store.nodes ++ [remoteNode]
      let order1 := match remoteNode.data.order with
        | some o => mapSet st.store.nodeCreationOrder remoteNode.id o
        | none => st.store.nodeCreationOrder
      let snap1 := if elementFound then st.snapshotCount else st.snapshotCount + 1
      let store1 : Store := { nodes := nodes1, edges := st.store.edges, nodeCreationOrder := order1 }
      let st1 : St := { st with store := store1, snapshotCount := snap1 }
      let timeOk : Bool := match st.sess.editingStartTime with
        | some t0 => decide (w.now - t0 < 2000)
        | none => false
      let shouldAllowUpdate : Bool := timeOk && ! hasLocalChanges
      if isNodeBeingEdited ∧ ¬ shouldAllowUpdate then
        let r2 := match remoteNode.data.completed with
          | some c =>
            let ns := updateFirstNode st1.renderer.nodes remoteNode.id
              (fun n => { n with data := { n.data with completed := some c } })
            { st1.renderer with nodes := ns }
          | none => st1.renderer
        { st1 with renderer := r2 }
      else
        let edges2 := match p.edge with
          | some e =>
            (store1.edges.filter (fun x => x.source = "" ∨ x.target = "" ∨ x.target ≠ e.target)) ++ [e]
          | none => store1.edges
        let st2 : St := { st1 with store := { store1 with edges := edges2 } }
        let rA := { st2.renderer with nodeSizeCache := mapDelete st2.renderer.nodeSizeCache remoteNode.id }
        let rB := match p.edge with
          | some _ =>
            let clearIds := remoteNode.id :: descendantsAux edges2 edges2.length remoteNode.id
            { rA with positions := rA.positions.filter (fun q => ¬ clearIds.contains q.1) }
          | none => rA
        let rC := d3UpdateBlock rB remoteNode editingNodeId selectedNodeId st2.sess.changedNodeIds
        let st3 : St := { st2 with renderer := rC }
        if editingNodeId = some remoteNode.id then
          let r4 := if elementFound then
              let ns := updateFirstNode st3.renderer.nodes remoteNode.id
                (d3EditedPatchRaw remoteNode isNodeSelected hasLocalChanges)
              { st3.renderer with nodes := ns }
            else { st3.renderer with nodes := st3.renderer.nodes ++ [remoteNode] }
          { st3 with renderer := r4 }
        else
          renderAndContentPhases w st3 remoteNode elementFound isNodeBeingEdited
            isNodeSelected hasLocalChanges

theorem mapGet_map_overwrite {A : Type} (m : List (String × A)) (k : String) (v : A)
    (hany : m.any (fun p => p.1 = k) = true) :
    mapGet (m.map (fun p => if p.1 = k then (k, v) else p)) k = some v := by
  induction m with
  | nil => simp at hany
  | cons p rest ih =>
    by_cases h : p.1 = k
    · simp [mapGet, List.find?, h]
    · simp only [List.any_cons] at hany
      have hr : rest.any (fun q => q.1 = k) = true := by
        rcases Bool.or_eq_true_iff.mp hany with h1 | h1
        · simp [h] at h1
        · exact h1
      simpa [mapGet, List.find?, h] using ih hr

theorem mapGet_append_single {A : Type} (m : List (String × A)) (k : String) (v : A)
    (hany : m.any (fun p => p.1 = k) = false) :
    mapGet (m ++ [(k, v)]) k = some v := by
  induction m with
  | nil => simp [mapGet, List.find?]
  | cons p rest ih =>
    simp only [List.any_cons, Bool.or_eq_false_iff] at hany
    have h : p.1 ≠ k := by simpa using hany.1
    simpa [mapGet, List.find?, h] using ih (by simpa using hany.2)

theorem mapGet_mapSet_self {A : Type} (m : List (String × A)) (k : String) (v : A) :
    mapGet (mapSet m k v) k = some v := by
  by_cases hany : m.any (fun p => p.1 = k) = true
  · simp only [mapSet, hany, if_true]
    exact mapGet_map_overwrite m k v hany
  · simp only [Bool.not_eq_true] at hany
    simp only [mapSet, hany, Bool.false_eq_true, if_false]
    exact mapGet_append_single m k v hany

theorem applyFocusRetries_focused (ed : EditorInst) :
    (applyFocusRetries ed 3).isFocused = true := by
  by_cases h : ed.isFocused = true
  · simp [applyFocusRetries, h]
  · simp only [Bool.not_eq_true] at h
    simp [applyFocusRetries, h]

theorem applyFocusRetries_sel (ed : EditorInst) (n : Nat) :
    (applyFocusRetries ed n).selFrom = ed.selFrom ∧
    (applyFocusRetries ed n).selTo = ed.selTo := by
  induction n generalizing ed with
  | zero => exact ⟨rfl, rfl⟩
  | succ k ih =>
    by_cases h : ed.isFocused = true
    · simp [applyFocusRetries, h]
    · simp only [Bool.not_eq_true] at h
      simp only [applyFocusRetries, h, Bool.false_eq_true, if_false]
      exact ih _

/-- Identity world for concrete evaluations: normalization and the DOM
rebuild are the identity, geometry oracles return fixed values, no widget
ever mounts after a render. -/
def wId : World :=
  { now := 0, nfc := fun s => s, multiImageRebuild := fun s => s,
    estimateNodeSize := fun _ => { width := 100, height := 43 },
    calcHeightWithImages := fun _ _ => 43,
    domScrollSize := fun _ => { width := 50, height := 20 },
    postRenderSched := fun _ _ => none }

/-- Concrete guard environment with the save flag off. -/
def envFix : Env := { entityName := "doc", currentUserId := "me", isSaving := false }

/-- Node with a label only. -/
def mkLNode (i l : String) : Node := { id := i, data := { label := some l } }

/-- Empty renderer to build concrete states from. -/
def rEmpty : Renderer :=
  { nodes := [], edges := [], nodeSizeCache := [], positions := [], editors := [],
    domRects := [], renderCount := 0, setDataCount := 0 }

/-- C9: every deferred size update callback re-checks the editing session at
the moment it resumes: when the target node has become the local active
edit node, both updateNodeSizeWithNewSize and calculateAndUpdateNodeSize
abandon the write and no-op silently, leaving the size cache, the node
rect, the on screen geometry and the rest of the state unchanged. -/
theorem deferredSizeCallbacks_noop_when_editing (w : World) (st : St) (nodeId : String)
    (newSize : Rect) (h : st.sess.editingNode = some nodeId) :
    updateNodeSizeWithNewSize w st nodeId newSize = st ∧
    calculateAndUpdateNodeSize w st nodeId = st := by
  constructor
  · simp [updateNodeSizeWithNewSize, h]
  · simp [calculateAndUpdateNodeSize, h]

/-- Concrete state with an active edit on node n1. -/
def stEditFix : St :=
  { store := { nodes := [mkLNode "n1" "A"], edges := [], nodeCreationOrder := [] },
    sess := { editingNode := some "n1", selectedNode := none,
              editingStartTime := some (-5000), changedNodeIds := ["n1"] },
    renderer := { rEmpty with nodes := [mkLNode "n1" "A"] },
    snapshotCount := 0 }

theorem deferredSizeCallbacks_noop_when_editing_witness :
    updateNodeSizeWithNewSize wId stEditFix "n1" { width := 9, height := 9 } = stEditFix ∧
    calculateAndUpdateNodeSize wId stEditFix "n1" = stEditFix :=
  deferredSizeCallbacks_noop_when_editing wId stEditFix "n1" { width := 9, height := 9 } rfl

/-- C8 (amended): on a forced render while a node is under active edit, the
focus flag and selection offsets of its editor are snapshotted before the
render; afterwards the widget is awaited with bounded retries, the saved
selection is clamped into the post render document bounds and reapplied
when the clamped range is non empty (a collapsed caret selection is not
reapplied), and focus is reapplied with bounded retry when the editor was
focused. -/
theorem safeRender_force_preserve_restore (w : World) (sess : Session) (r : Renderer)
    (nid : String) (ed edR : EditorInst)
    (hEdit : sess.editingNode = some nid) (hnid : nid ≠ "")
    (hEd : mapGet r.editors nid = some ed)
    (hAlive : ed.isDestroyed = false) (hView : ed.hasView = true)
    (hFound : findEditorWithin (w.postRenderSched nid) 10 = some edR)
    (hNE : min ed.selFrom edR.docSize ≠ min ed.selTo edR.docSize)
    (hFoc : ed.isFocused = true) :
    (safeRenderR w sess r true).2 = true ∧
    ((safeRenderR w sess r true).1).renderCount = r.renderCount + 1 ∧
    (mapGet ((safeRenderR w sess r true).1).editors nid).map (fun e => e.selFrom)
        = some (min ed.selFrom edR.docSize) ∧
    (mapGet ((safeRenderR w sess r true).1).editors nid).map (fun e => e.selTo)
        = some (min ed.selTo edR.docSize) ∧
    (mapGet ((safeRenderR w sess r true).1).editors nid).map (fun e => e.isFocused)
        = some true := by
  have hps : preserveEditorState r sess.editingNode =
      some { nodeId := nid, isFocused := ed.isFocused, selFrom := ed.selFrom,
             selTo := ed.selTo, selAnchor := ed.selAnchor, selHead := ed.selHead,
             content := ed.content } := by
    rw [hEdit]
    simp [preserveEditorState, hnid, hEd, hAlive, hView]
  have hcond : min ed.selFrom edR.docSize ≠ min ed.selTo edR.docSize ∧
      min ed.selTo edR.docSize ≤ edR.docSize := And.intro hNE (Nat.min_le_right _ _)
  have hres : restoreEditorState (w.postRenderSched nid)
      { nodeId := nid, isFocused := ed.isFocused, selFrom := ed.selFrom,
        selTo := ed.selTo, selAnchor := ed.selAnchor, selHead := ed.selHead,
        content := ed.content } =
      some (applyFocusRetries
        { edR with selFrom := min ed.selFrom edR.docSize, selTo := min ed.selTo edR.docSize,
                   selAnchor := min ed.selFrom edR.docSize, selHead := min ed.selTo edR.docSize } 3) := by
    simp only [restoreEditorState, hFound]
    rw [if_pos hcond]
    rw [if_pos hFoc]
  have hsome : sess.editingNode.isSome = true := by rw [hEdit]; rfl
  simp only [safeRenderR, hsome, Bool.not_true, and_false, if_false, true_and, if_true,
    Bool.not_false, and_true, not_true, hps, hres, renderStep]
  refine ⟨?_, ?_, ?_⟩
  · rw [mapGet_mapSet_self]
    simp [(applyFocusRetries_sel _ 3).1]
  · rw [mapGet_mapSet_self]
    simp [(applyFocusRetries_sel _ 3).2]
  · rw [mapGet_mapSet_self]
    simp [applyFocusRetries_focused]

/-- Editor of the active node before the forced render: focused, caret at 3. -/
def edCaretPre : EditorInst :=
  { isDestroyed := false, hasView := true, content := "abc", selFrom := 3, selTo := 3,
    selAnchor := 3, selHead := 3, isFocused := true, docSize := 10 }

/-- Widget found after the render: default selection at 0. -/
def edCaretPost : EditorInst :=
  { isDestroyed := false, hasView := true, content := "abc", selFrom := 0, selTo := 0,
    selAnchor := 0, selHead := 0, isFocused := false, docSize := 10 }

/-- World whose post render widget schedule yields the remounted editor at
the first poll. -/
def wCaret : World := { wId with postRenderSched := fun _ k => if k = 0 then some edCaretPost else none }

/-- Session editing n1 and renderer with its live editor. -/
def sessCaret : Session :=
  { editingNode := some "n1", selectedNode := none, editingStartTime := none,
    changedNodeIds := [] }

/-- Renderer holding the pre render caret editor. -/
def rCaret : Renderer := { rEmpty with editors := [("n1", edCaretPre)] }

/-- C8 counterexample: a forced render with a focused caret selection at
offset 3 in a document of size 10; the claim says the saved selection is
clamped and reapplied, but the resulting editor keeps the post render
default selection 0 (focus is reapplied, the selection is not, because a
collapsed range fails the validFrom not equal validTo check). -/
theorem forcedRender_caret_not_reapplied :
    (mapGet ((safeRenderR wCaret sessCaret rCaret true).1).editors "n1").map
        (fun e => e.selFrom) = some 0 ∧
    (mapGet ((safeRenderR wCaret sessCaret rCaret true).1).editors "n1").map
        (fun e => e.isFocused) = some true ∧
    edCaretPre.selFrom = 3 ∧ edCaretPost.docSize = 10 ∧
    min edCaretPre.selFrom edCaretPost.docSize = 3 ∧ (3 : Nat) ≠ 0 := by
  refine ⟨?_, ?_, rfl, rfl, rfl, by decide⟩ <;> rfl

/-- Pre render editor of the active node with a non collapsed selection. -/
def edRangePre : EditorInst :=
  { isDestroyed := false, hasView := true, content := "abc", selFrom := 2, selTo := 5,
    selAnchor := 2, selHead := 5, isFocused := true, docSize := 10 }

/-- Renderer holding the non collapsed selection editor. -/
def rRange : Renderer := { rEmpty with editors := [("n1", edRangePre)] }

theorem safeRender_force_preserve_restore_witness :
    (safeRenderR wCaret sessCaret rRange true).2 = true ∧
    ((safeRenderR wCaret sessCaret rRange true).1).renderCount = rRange.renderCount + 1 ∧
    (mapGet ((safeRenderR wCaret sessCaret rRange true).1).editors "n1").map
        (fun e => e.selFrom) = some (min edRangePre.selFrom edCaretPost.docSize) ∧
    (mapGet ((safeRenderR wCaret sessCaret rRange true).1).editors "n1").map
        (fun e => e.selTo) = some (min edRangePre.selTo edCaretPost.docSize) ∧
    (mapGet ((safeRenderR wCaret sessCaret rRange true).1).editors "n1").map
        (fun e => e.isFocused) = some true :=
  safeRender_force_preserve_restore wCaret sessCaret rRange "n1" edRangePre edCaretPost
    rfl (by decide) rfl rfl rfl (by decide) (by decide) rfl

/-- C10 (amended): for a mounted editor, the content write is skipped when
the effective label (the event label, falling back to the stored node
label when the event one is missing or empty, normalized) is empty or
whitespace only after trimming; consequently a write, when it happens,
always installs that non blank effective label — the widget is never set
to empty content, but an event without a label can still trigger a write
of the stale stored label instead of being skipped. -/
theorem setContent_empty_skip_amended (w : World) (rl dl : Option String) (b : Bool)
    (ed : EditorInst) (himg : countImgTags (effectiveRemoteLabel w rl dl) ≤ 2) :
    (blankString (effectiveRemoteLabel w rl dl) = true →
        setContentForMountedEditor w rl dl b ed = (ed, false)) ∧
    (setContentForMountedEditor w rl dl b ed = (ed, false) ∨
      ((setContentForMountedEditor w rl dl b ed).1.content = effectiveRemoteLabel w rl dl ∧
        blankString (effectiveRemoteLabel w rl dl) = false)) := by
  constructor
  · intro h
    have hor : effectiveRemoteLabel w rl dl = "" ∨ blankString (effectiveRemoteLabel w rl dl) :=
      Or.inr h
    simp only [setContentForMountedEditor]
    rw [if_pos hor]
  · by_cases hor : effectiveRemoteLabel w rl dl = "" ∨ blankString (effectiveRemoteLabel w rl dl)
    · exact Or.inl (by simp only [setContentForMountedEditor]; rw [if_pos hor])
    · have hblank : blankString (effectiveRemoteLabel w rl dl) = false := by
        rcases Bool.eq_false_or_eq_true (blankString (effectiveRemoteLabel w rl dl)) with h | h
        · exact absurd (Or.inr h) hor
        · exact h
      by_cases hsame : (if ed.content ≠ "" then w.nfc ed.content else "")
          = w.nfc (effectiveRemoteLabel w rl dl) ∧ b
      · refine Or.inl ?_
        simp only [setContentForMountedEditor]
        rw [if_neg hor, if_pos hsame]
      · refine Or.inr ⟨?_, hblank⟩
        have hle : ¬ countImgTags (effectiveRemoteLabel w rl dl) > 2 := by omega
        simp only [setContentForMountedEditor]
        rw [if_neg hor, if_neg hsame]
        simp [hle]

/-- Mounted editor holding stale content Old. -/
def edOld : EditorInst :=
  { isDestroyed := false, hasView := true, content := "Old", selFrom := 0, selTo := 0,
    selAnchor := 0, selHead := 0, isFocused := false, docSize := 3 }

/-- State with node n1 selected (not edited), stored label Hello, and a
mounted editor containing Old. -/
def stSel : St :=
  { store := { nodes := [mkLNode "n1" "Hello"], edges := [], nodeCreationOrder := [] },
    sess := { editingNode := none, selectedNode := some "n1",
              editingStartTime := none, changedNodeIds := [] },
    renderer := { rEmpty with nodes := [mkLNode "n1" "Hello"], editors := [("n1", edOld)] },
    snapshotCount := 0 }

/-- NodeUpdated event for n1 whose node carries no label at all. -/
def pEmptyLabel : UpdatePayload :=
  { entity_name := "doc", modified_by := "you", node_id := "n1",
    node := some { id := "n1", data := {} }, edge := none }

/-- C10 counterexample: a remote NodeUpdated event whose label is absent;
the claim says the editor content write step is skipped, but processing
replaces the widget content Old with the stale stored label Hello through
the fallback of the mounted editor path. -/
theorem emptyLabel_write_not_skipped :
    pEmptyLabel.node = some { id := "n1", data := {} } ∧
    ((mapGet (handleRealtimeNodeUpdate envFix wId pEmptyLabel stSel).renderer.editors "n1").map
        (fun e => e.content)) = some "Hello" ∧
    (mapGet stSel.renderer.editors "n1").map (fun e => e.content) = some "Old" ∧
    "Hello" ≠ "Old" := by
  refine ⟨rfl, by decide, rfl, by decide⟩

theorem setContent_empty_skip_amended_witness :
    setContentForMountedEditor wId (some "  ") (some "Hello") false edOld = (edOld, false) ∧
    (setContentForMountedEditor wId (some "Hi") none false edOld = (edOld, false) ∨
      ((setContentForMountedEditor wId (some "Hi") none false edOld).1.content =
          effectiveRemoteLabel wId (some "Hi") none ∧
        blankString (effectiveRemoteLabel wId (some "Hi") none) = false)) := by
  constructor
  · exact (setContent_empty_skip_amended wId (some "  ") (some "Hello") false edOld
      (by decide)).1 (by decide)
  · exact (setContent_empty_skip_amended wId (some "Hi") none false edOld (by decide)).2

/-- C2 (amended): while a bulk save is in flight, a single node update is
ignored exactly when its target is the active edit node and is processed
identically to the non saving case otherwise; batch update events and
deletion events, however, are dropped entirely while saving, regardless of
which nodes they target. -/
theorem isSaving_gating_amended :
    (∀ (env : Env) (w : World) (p : UpdatePayload) (st : St),
        env.isSaving = true → st.sess.editingNode = some p.node_id →
        handleRealtimeNodeUpdate env w p st = st) ∧
    (∀ (env : Env) (w : World) (p : UpdatePayload) (st : St),
        st.sess.editingNode ≠ some p.node_id →
        handleRealtimeNodeUpdate env w p st =
          handleRealtimeNodeUpdate { env with isSaving := false } w p st) ∧
    (∀ (env : Env) (w : World) (p : BatchPayload) (st : St),
        env.isSaving = true → handleRealtimeNodesBatchUpdate env w p st = st) ∧
    (∀ (env : Env) (w : World) (p : DeletePayload) (st : St),
        env.isSaving = true → handleRealtimeNodesDeleted env w p st = st) := by
  refine ⟨?_, ?_, ?_, ?_⟩
  · intro env w p st hs he
    simp only [handleRealtimeNodeUpdate]
    by_cases h1 : p.entity_name ≠ env.entityName
    · rw [if_pos h1]
    · rw [if_neg h1]
      by_cases h2 : p.modified_by = env.currentUserId
      · rw [if_pos h2]
      · rw [if_neg h2, if_pos (And.intro hs he)]
  · intro env w p st h
    have h3L : ¬ (env.isSaving = true ∧ st.sess.editingNode = some p.node_id) :=
      fun hc => h hc.2
    have h3R : ¬ (({ env with isSaving := false } : Env).isSaving = true ∧
        st.sess.editingNode = some p.node_id) := fun hc => h hc.2
    simp only [handleRealtimeNodeUpdate]
    by_cases h1 : p.entity_name ≠ env.entityName
    · rw [if_pos h1, if_pos h1]
    · rw [if_neg h1, if_neg h1]
      by_cases h2 : p.modified_by = env.currentUserId
      · rw [if_pos h2, if_pos h2]
      · rw [if_neg h2, if_neg h2, if_neg h3L, if_neg h3R]
  · intro env w p st hs
    simp only [handleRealtimeNodesBatchUpdate]
    by_cases h1 : p.entity_name ≠ env.entityName
    · rw [if_pos h1]
    · rw [if_neg h1]
      by_cases h2 : p.modified_by = env.currentUserId
      · rw [if_pos h2]
      · rw [if_neg h2, if_pos hs]
  · intro env w p st hs
    simp only [handleRealtimeNodesDeleted]
    by_cases h1 : p.entity_name ≠ env.entityName
    · rw [if_pos h1]
    · rw [if_neg h1]
      by_cases h2 : p.modified_by = env.currentUserId
      · rw [if_pos h2]
      · rw [if_neg h2, if_pos hs]

/-- Guard environment with the save flag on. -/
def envSaving : Env := { entityName := "doc", currentUserId := "me", isSaving := true }

/-- State editing n1 while node n2 also exists. -/
def stTwoNodes : St :=
  { store := { nodes := [mkLNode "n1" "A", mkLNode "n2" "B"], edges := [],
               nodeCreationOrder := [] },
    sess := { editingNode := some "n1", selectedNode := none,
              editingStartTime := some (-5000), changedNodeIds := ["n1"] },
    renderer := { rEmpty with nodes := [mkLNode "n1" "A", mkLNode "n2" "B"] },
    snapshotCount := 0 }

/-- Deletion of n2 from another user, arriving while a save is in flight. -/
def pDelOther : DeletePayload :=
  { entity_name := "doc", modified_by := "you", node_ids := ["n2"] }

/-- C2 counterexample: while saving, a deletion event targeting n2 (not the
active edit node n1) is dropped entirely and the state is unchanged,
although the claim demands that an event targeting another node be
processed normally. -/
theorem savingDelete_ignored_for_other_node :
    envSaving.isSaving = true ∧
    stTwoNodes.sess.editingNode = some "n1" ∧
    pDelOther.node_ids = ["n2"] ∧
    ("n2" : String) ≠ "n1" ∧
    (findNode stTwoNodes.store.nodes "n2").isSome = true ∧
    handleRealtimeNodesDeleted envSaving wId pDelOther stTwoNodes = stTwoNodes := by
  refine ⟨rfl, rfl, rfl, by decide, rfl, by decide⟩

theorem isSaving_gating_amended_witness :
    handleRealtimeNodeUpdate envSaving wId pEmptyLabel stEditFix = stEditFix ∧
    handleRealtimeNodesDeleted envSaving wId pDelOther stTwoNodes = stTwoNodes := by
  constructor
  · exact isSaving_gating_amended.1 envSaving wId pEmptyLabel stEditFix rfl rfl
  · exact isSaving_gating_amended.2.2.2 envSaving wId pDelOther stTwoNodes rfl

theorem findNode_isSome_any (l : List Node) (i : String) :
    (findNode l i).isSome = l.any (fun n => n.id = i) := by
  induction l with
  | nil => rfl
  | cons n rest ih =>
    by_cases h : n.id = i
    · simp [findNode, List.find?, h] at ih ⊢
    · simp [findNode, List.find?, h] at ih ⊢
      simp [ih]

theorem labelAt_updateFirstNode_preserving (l : List Node) (i : String) (f : Node → Node)
    (hid : ∀ n, n.id = i → (f n).id = i)
    (hlab : ∀ n, (f n).data.label = n.data.label) :
    labelAt (updateFirstNode l i f) i = labelAt l i := by
  unfold labelAt
  rw [findNode_updateFirstNode_self l i f hid]
  cases findNode l i with
  | none => rfl
  | some n0 => simp [hlab]

theorem completedAt_updateFirstNode (l : List Node) (i : String) (f : Node → Node) (n0 : Node)
    (hid : ∀ n, n.id = i → (f n).id = i) (hn0 : findNode l i = some n0) :
    completedAt (updateFirstNode l i f) i = (f n0).data.completed := by
  unfold completedAt
  rw [findNode_updateFirstNode_self l i f hid, hn0]

/-- C4: a remote NodeUpdated event whose target is the active edit node and
is in the dirty set leaves the stored label and the editor content of that
node untouched, still merges a completed flag carried by the event into
the store, and invokes no render and no setData for it. -/
theorem activeDirty_label_protected (env : Env) (w : World) (p : UpdatePayload) (st : St)
    (rn : Node)
    (h1 : p.entity_name = env.entityName) (h2 : p.modified_by ≠ env.currentUserId)
    (h3 : env.isSaving = false) (hn : p.node = some rn)
    (hfound : (findNode st.store.nodes rn.id).isSome = true)
    (hedit : st.sess.editingNode = some rn.id)
    (hdirty : st.sess.changedNodeIds.contains rn.id = true) :
    labelAt (handleRealtimeNodeUpdate env w p st).store.nodes rn.id
      = labelAt st.store.nodes rn.id ∧
    (∀ c, rn.data.completed = some c →
      completedAt (handleRealtimeNodeUpdate env w p st).store.nodes rn.id = some c) ∧
    (handleRealtimeNodeUpdate env w p st).renderer.editors = st.renderer.editors ∧
    (handleRealtimeNodeUpdate env w p st).renderer.renderCount = st.renderer.renderCount ∧
    (handleRealtimeNodeUpdate env w p st).renderer.setDataCount
      = st.renderer.setDataCount := by
  have c1 : (p.entity_name ≠ env.entityName) = False := by simp [h1]
  have c2 : (p.modified_by = env.currentUserId) = False := by simp [h2]
  have c3 : (env.isSaving = true ∧ st.sess.editingNode = some p.node_id) = False := by
    simp [h3]
  have hany : st.store.nodes.any (fun n => n.id = rn.id) = true := by
    rw [← findNode_isSome_any, hfound]
  have hb : decide (st.sess.editingNode = some rn.id) = true := by simp [hedit]
  simp only [handleRealtimeNodeUpdate, c1, c2, c3, if_false, hn, hany, hb, hdirty]
  simp only [Bool.and_true, Bool.and_self, Bool.not_true, Bool.and_false, Bool.false_and,
    Bool.true_and, if_true, Bool.not_false]
  simp only [Bool.false_eq_true, not_false_eq_true, true_and, and_true, if_true, if_false]
  obtain ⟨n0, hn0⟩ := Option.isSome_iff_exists.mp hfound
  rcases hc : rn.data.completed with _ | c
  · simp only [hc, Option.isSome_none, Bool.false_and, Bool.or_false, if_false]
    simp [labelAt, completedAt]
  · simp only [hc, Option.isSome_some, Bool.true_and, Bool.true_or, if_true]
    refine ⟨?_, ?_, ?_⟩
    · apply labelAt_updateFirstNode_preserving
      · intro n hni
        simp [completedOnlyPatch, hni]
      · intro n
        simp only [completedOnlyPatch]
        split <;> rfl
    · intro c2 hc2
      rw [completedAt_updateFirstNode _ _ _ n0 _ hn0]
      · simp only [completedOnlyPatch]
        split <;> simp [hc, hc2]
      · intro n hni
        simp [completedOnlyPatch, hni]
    · simp

/-- NodeUpdated event for the dirty active node n1 carrying a new label and
a completed flag. -/
def pDirtyActive : UpdatePayload :=
  { entity_name := "doc", modified_by := "you", node_id := "n1",
    node := some { id := "n1", data := { label := some "X", completed := some true } },
    edge := none }

theorem activeDirty_label_protected_witness :
    labelAt (handleRealtimeNodeUpdate envFix wId pDirtyActive stTwoNodes).store.nodes "n1"
      = labelAt stTwoNodes.store.nodes "n1" ∧
    completedAt (handleRealtimeNodeUpdate envFix wId pDirtyActive stTwoNodes).store.nodes "n1"
      = some true ∧
    (handleRealtimeNodeUpdate envFix wId pDirtyActive stTwoNodes).renderer.editors
      = stTwoNodes.renderer.editors ∧
    (handleRealtimeNodeUpdate envFix wId pDirtyActive stTwoNodes).renderer.renderCount
      = stTwoNodes.renderer.renderCount ∧
    (handleRealtimeNodeUpdate envFix wId pDirtyActive stTwoNodes).renderer.setDataCount
      = stTwoNodes.renderer.setDataCount := by
  have h := activeDirty_label_protected envFix wId pDirtyActive stTwoNodes
    { id := "n1", data := { label := some "X", completed := some true } }
    rfl (by decide) rfl rfl rfl rfl rfl
  exact ⟨h.1, h.2.1 true rfl, h.2.2.1, h.2.2.2.1, h.2.2.2.2⟩

theorem filter_idem {α : Type} (l : List α) (p : α → Bool) :
    (l.filter p).filter p = l.filter p := by
  rw [List.filter_filter]
  apply List.filter_congr
  intro a _
  simp

theorem foldl_mapDelete_eq_filter {A : Type} (ids : List String) (m : List (String × A)) :
    ids.foldl (fun acc i => mapDelete acc i) m
      = m.filter (fun q => ! ids.contains q.1) := by
  induction ids generalizing m with
  | nil => simp
  | cons i rest ih =>
    simp only [List.foldl_cons]
    rw [ih, mapDelete, List.filter_filter]
    apply List.filter_congr
    intro a _
    by_cases h : a.1 = i <;> by_cases h2 : rest.contains a.1 = true <;>
      simp [h, h2, List.contains_cons]

/-- C6: processing the same NodesDeleted event twice leaves the document
store (nodes, edges and the insertion order index) exactly as processing
it once, and after processing no edge of the store has a removed id as its
source or target. -/
theorem nodesDeleted_idempotent (env : Env) (w : World) (p : DeletePayload) (st : St)
    (h1 : p.entity_name = env.entityName) (h2 : p.modified_by ≠ env.currentUserId)
    (h3 : env.isSaving = false) (h4 : p.node_ids.isEmpty = false) :
    (handleRealtimeNodesDeleted env w p (handleRealtimeNodesDeleted env w p st)).store
      = (handleRealtimeNodesDeleted env w p st).store ∧
    ((handleRealtimeNodesDeleted env w p st).store.edges.all
      (fun e => ! p.node_ids.contains e.source && ! p.node_ids.contains e.target))
      = true := by
  have c1 : (p.entity_name ≠ env.entityName) = False := by simp [h1]
  have c2 : (p.modified_by = env.currentUserId) = False := by simp [h2]
  have c3 : (env.isSaving = true) = False := by simp [h3]
  have c4 : (p.node_ids.isEmpty = true) = False := by simp [h4]
  simp only [handleRealtimeNodesDeleted, c1, c2, c3, c4, if_false]
  constructor
  · congr 1
    · exact filter_idem _ _
    · exact filter_idem _ _
    · rw [foldl_mapDelete_eq_filter, foldl_mapDelete_eq_filter, filter_idem]
  · rw [List.all_eq_true]
    intro e he
    have hm := (List.mem_filter.mp he).2
    simp only [decide_eq_true_eq] at hm
    simp at hm
    simp [hm.1, hm.2]

theorem nodesDeleted_idempotent_witness :
    (handleRealtimeNodesDeleted envFix wId pDelOther
        (handleRealtimeNodesDeleted envFix wId pDelOther stTwoNodes)).store
      = (handleRealtimeNodesDeleted envFix wId pDelOther stTwoNodes).store ∧
    ((handleRealtimeNodesDeleted envFix wId pDelOther stTwoNodes).store.edges.all
      (fun e => ! pDelOther.node_ids.contains e.source &&
                ! pDelOther.node_ids.contains e.target)) = true :=
  nodesDeleted_idempotent envFix wId pDelOther stTwoNodes rfl (by decide) rfl rfl

/-- Editor of n1 holding the local content A. -/
def edContentA : EditorInst :=
  { isDestroyed := false, hasView := true, content := "A", selFrom := 1, selTo := 1,
    selAnchor := 1, selHead := 1, isFocused := true, docSize := 1 }

/-- State for the grace window scenario: editing n1 started one second ago,
no local keystrokes yet, store label A, mounted editor content A. -/
def stGrace : St :=
  { store := { nodes := [mkLNode "n1" "A"], edges := [], nodeCreationOrder := [] },
    sess := { editingNode := some "n1", selectedNode := none,
              editingStartTime := some (-1000), changedNodeIds := [] },
    renderer := { rEmpty with nodes := [mkLNode "n1" "A"], editors := [("n1", edContentA)] },
    snapshotCount := 0 }

/-- Remote NodeUpdated for n1 carrying label B. -/
def pGrace : UpdatePayload :=
  { entity_name := "doc", modified_by := "you", node_id := "n1",
    node := some (mkLNode "n1" "B"), edge := none }

/-- C3: evaluating the handler at the grace window input (edit started one
second ago, dirty set empty, remote label B): the event is NOT applied in
full — the stored label and the editor content both stay A; only the
renderer internal node data receives B, because the deferred callback
returns at its active node branch before any content write. -/
theorem graceWindow_no_full_apply :
    stGrace.sess.editingNode = some "n1" ∧
    stGrace.sess.changedNodeIds = [] ∧
    stGrace.sess.editingStartTime = some (-1000) ∧
    wId.now = 0 ∧
    pGrace.node = some (mkLNode "n1" "B") ∧
    labelAt (handleRealtimeNodeUpdate envFix wId pGrace stGrace).store.nodes "n1"
      = some "A" ∧
    ((mapGet (handleRealtimeNodeUpdate envFix wId pGrace stGrace).renderer.editors "n1").map
      (fun e => e.content)) = some "A" ∧
    labelAt (handleRealtimeNodeUpdate envFix wId pGrace stGrace).renderer.nodes "n1"
      = some "B" := by
  refine ⟨rfl, rfl, rfl, rfl, rfl, by decide, by decide, by decide⟩

theorem findNode_map_presId (l : List Node) (F : Node → Node) (i : String)
    (hid : ∀ n ∈ l, (F n).id = n.id) :
    findNode (l.map F) i = (findNode l i).map F := by
  induction l with
  | nil => rfl
  | cons n rest ih =>
    have hfn : (F n).id = n.id := hid n (List.mem_cons_self _ _)
    by_cases h : n.id = i
    · simp [findNode, List.find?, h, hfn]
    · have hFn : (F n).id ≠ i := by rw [hfn]; exact h
      have ih2 := ih (fun m hm => hid m (List.mem_cons_of_mem _ hm))
      simp only [List.map_cons]
      simp only [findNode, List.find?] at ih2 ⊢
      simp only [decide_eq_false hFn, decide_eq_false h]
      exact ih2

theorem findNode_eq_of_nodup (l : List Node) (a : Node) (i : String)
    (hnd : (l.map (fun n => n.id)).Nodup) (hmem : a ∈ l) (hai : a.id = i) :
    findNode l i = some a := by
  induction l with
  | nil => cases hmem
  | cons n rest ih =>
    simp only [List.map_cons, List.nodup_cons] at hnd
    rcases List.mem_cons.mp hmem with h | h
    · subst h
      simp [findNode, List.find?, hai]
    · have hne : n.id ≠ i := by
        intro hni
        apply hnd.1
        rw [hni, ← hai]
        exact List.mem_map.mpr ⟨a, h, rfl⟩
      simp only [findNode, List.find?, decide_eq_false hne]
      exact ih hnd.2 h

theorem contains_map_id_eq (l : List Node) (i : String) :
    (l.map (fun n => n.id)).contains i = (findNode l i).isSome := by
  induction l with
  | nil => rfl
  | cons n rest ih =>
    by_cases h : n.id = i
    · simp [findNode, List.find?, h]
    · have h2 : i ≠ n.id := fun hh => h hh.symm
      simpa [findNode, List.find?, h, h2, List.contains_cons] using ih

theorem mountNewNodeEditorB_renderCount (r : Renderer) (nn : Node) :
    (mountNewNodeEditorB r nn).renderCount = r.renderCount := by
  unfold mountNewNodeEditorB
  cases mapGet r.editors nn.id <;> rfl

theorem mountFoldl_renderCount (l : List Node) (r : Renderer) :
    (l.foldl (fun rr nn => mountNewNodeEditorB rr nn) r).renderCount = r.renderCount := by
  induction l generalizing r with
  | nil => rfl
  | cons nn rest ih =>
    rw [List.foldl_cons, ih, mountNewNodeEditorB_renderCount]

/-- C1 (amended): a NodesBatchUpdated event containing a brand new node and
a patch for the active edit node adds the new node to the document store
and triggers a forced render even though an edit is active; the active
node entry in the document store, however, is not left unchanged: it is
replaced wholesale by its batch patch (the object spread overwrites the
whole data object, label included). Only the mounted editor widget of the
active node is left alone. -/
theorem batchNewNode_amended (env : Env) (w : World) (p : BatchPayload) (st : St)
    (rnNew ra ln : Node) (a : String)
    (h1 : p.entity_name = env.entityName) (h2 : p.modified_by ≠ env.currentUserId)
    (h3 : env.isSaving = false)
    (hndremote : (p.nodes.map (fun n => n.id)).Nodup)
    (hmemnew : rnNew ∈ p.nodes)
    (hnew : findNode st.store.nodes rnNew.id = none)
    (hmema : ra ∈ p.nodes) (hraid : ra.id = a)
    (hlocal : findNode st.store.nodes a = some ln)
    (hedit : st.sess.editingNode = some a)
    (hsel : st.sess.selectedNode ≠ some rnNew.id) :
    findNode (handleRealtimeNodesBatchUpdate env w p st).store.nodes rnNew.id
      = some rnNew ∧
    (handleRealtimeNodesBatchUpdate env w p st).renderer.renderCount
      = st.renderer.renderCount + 1 ∧
    findNode (handleRealtimeNodesBatchUpdate env w p st).store.nodes a = some ra := by
  have c1 : (p.entity_name ≠ env.entityName) = False := by simp [h1]
  have c2 : (p.modified_by = env.currentUserId) = False := by simp [h2]
  have c3 : (env.isSaving = true) = False := by simp [h3]
  have hne : a ≠ rnNew.id := by
    intro he
    rw [← he] at hnew
    rw [hlocal] at hnew
    cases hnew
  have hempty : (p.nodes.isEmpty = true) = False := by
    cases hq : p.nodes with
    | nil => rw [hq] at hmemnew; cases hmemnew
    | cons x xs => simp
  have hpredfalse : (decide (st.sess.editingNode = some rnNew.id ∨
      st.sess.selectedNode = some rnNew.id)) = false := by
    apply decide_eq_false
    rintro (hh | hh)
    · rw [hedit] at hh
      exact hne (Option.some.inj hh)
    · exact hsel hh
  have hall : ((p.nodes.map (fun n => n.id)).all (fun i =>
      decide (st.sess.editingNode = some i ∨ st.sess.selectedNode = some i))) = false := by
    apply List.all_eq_false.mpr
    exact ⟨rnNew.id, List.mem_map.mpr ⟨rnNew, hmemnew, rfl⟩, by simp [hpredfalse]⟩
  have hcontainsNew : ((st.store.nodes.map (fun n => n.id)).contains rnNew.id) = false := by
    rw [contains_map_id_eq, hnew]
    rfl
  have hnewB : (p.nodes.any (fun n =>
      decide (¬ (st.store.nodes.map (fun n2 => n2.id)).contains n.id = true))) = true := by
    apply List.any_eq_true.mpr
    exact ⟨rnNew, hmemnew, by simp only [hcontainsNew]; decide⟩
  have hisSome : st.sess.editingNode.isSome = true := by rw [hedit]; rfl
  have hidF : ∀ n ∈ st.store.nodes,
      ((fun ln2 : Node => match p.nodes.find? (fun rn : Node => decide (rn.id = ln2.id)) with
        | some rn => rn
        | none => ln2) n).id = n.id := by
    intro n _
    cases hf : p.nodes.find? (fun rn : Node => decide (rn.id = n.id)) with
    | none => simp [hf]
    | some rn =>
      have := List.find?_some hf
      simp only [decide_eq_true_eq] at this
      simp [hf, this]
  have hlnid : ln.id = a := by
    have := List.find?_some hlocal
    simpa using this
  have hfilter : findNode (p.nodes.filter (fun rn =>
      decide (¬ (st.store.nodes.map (fun n2 => n2.id)).contains rn.id = true))) rnNew.id
      = some rnNew := by
    apply findNode_eq_of_nodup
    · exact ((List.filter_sublist _).map _).nodup hndremote
    · exact List.mem_filter.mpr ⟨hmemnew, by simp only [hcontainsNew]; decide⟩
    · rfl
  simp only [handleRealtimeNodesBatchUpdate, c1, c2, c3, hempty, hall, hnewB, hisSome,
    if_false, Bool.false_eq_true, and_false, false_and, Bool.not_true, not_false_eq_true,
    and_true, true_and, if_true, not_true, Bool.true_eq_false]
  refine ⟨?_, ?_, ?_⟩
  · rw [findNode_append]
    have h0 : findNode (st.store.nodes.map (fun ln2 : Node =>
        match p.nodes.find? (fun rn : Node => decide (rn.id = ln2.id)) with
        | some rn => rn
        | none => ln2)) rnNew.id = none := by
      rw [findNode_map_presId _ _ _ hidF, hnew]
      rfl
    simp only [h0]
    exact hfilter
  · rw [mountFoldl_renderCount, safeRenderR_renderCount]
    simp only [setDataR]
    rcases hpe : p.edges with _ | es
    · simp [hpe]
    · simp only [hpe]
      split <;> rfl
  · rw [findNode_append]
    have hra : List.find? (fun rn : Node => decide (rn.id = a)) p.nodes = some ra :=
      findNode_eq_of_nodup p.nodes ra a hndremote hmema hraid
    have h0 : findNode (st.store.nodes.map (fun ln2 : Node =>
        match p.nodes.find? (fun rn : Node => decide (rn.id = ln2.id)) with
        | some rn => rn
        | none => ln2)) a = some ra := by
      rw [findNode_map_presId _ _ _ hidF, hlocal]
      show some (match p.nodes.find? (fun rn : Node => decide (rn.id = ln.id)) with
        | some rn => rn
        | none => ln) = some ra
      rw [hlnid, hra]
    simp only [h0]

/-- Batch carrying a brand new node n2 and a patch for the edited node n1. -/
def pBatchNew : BatchPayload :=
  { entity_name := "doc", modified_by := "you",
    nodes := [mkLNode "n2" "hi", { id := "n1", data := { label := some "X" } }],
    edges := some [{ source := "root", target := "n2" }] }

/-- Nodes of the batch scenario store: a root node and the edited n1. -/
def batchNodes : List Node := [{ id := "root", data := {} }, mkLNode "n1" "A"]

/-- Edge of the batch scenario store. -/
def batchEdges : List Edge := [{ source := "root", target := "n1" }]

/-- State editing n1 (label A) with a root node and one edge. -/
def stBatch : St :=
  { store := { nodes := batchNodes, edges := batchEdges, nodeCreationOrder := [] },
    sess := { editingNode := some "n1", selectedNode := none,
              editingStartTime := some (-10000), changedNodeIds := ["n1"] },
    renderer := { rEmpty with nodes := batchNodes, edges := batchEdges,
                              editors := [("n1", edContentA)] },
    snapshotCount := 0 }

/-- C1 counterexample: the batch adds n2 and renders, but the stored label
of the active edit node n1 becomes X, the label of its batch patch, rather
than staying at the local value A as the claim demands. -/
theorem batchNewNode_active_label_overwritten :
    stBatch.sess.editingNode = some "n1" ∧
    labelAt stBatch.store.nodes "n1" = some "A" ∧
    findNode stBatch.store.nodes "n2" = none ∧
    (findNode (handleRealtimeNodesBatchUpdate envFix wId pBatchNew stBatch).store.nodes
      "n2").isSome = true ∧
    (handleRealtimeNodesBatchUpdate envFix wId pBatchNew stBatch).renderer.renderCount
      = stBatch.renderer.renderCount + 1 ∧
    labelAt (handleRealtimeNodesBatchUpdate envFix wId pBatchNew stBatch).store.nodes "n1"
      = some "X" ∧
    (some "X" : Option String) ≠ some "A" := by
  refine ⟨rfl, rfl, rfl, by decide, by decide, by decide, by decide⟩

theorem batchNewNode_amended_witness :
    findNode (handleRealtimeNodesBatchUpdate envFix wId pBatchNew stBatch).store.nodes "n2"
      = some (mkLNode "n2" "hi") ∧
    (handleRealtimeNodesBatchUpdate envFix wId pBatchNew stBatch).renderer.renderCount
      = stBatch.renderer.renderCount + 1 ∧
    findNode (handleRealtimeNodesBatchUpdate envFix wId pBatchNew stBatch).store.nodes "n1"
      = some { id := "n1", data := { label := some "X" } } :=
  batchNewNode_amended envFix wId pBatchNew stBatch
    (mkLNode "n2" "hi") { id := "n1", data := { label := some "X" } } (mkLNode "n1" "A") "n1"
    rfl (by decide) rfl (by decide) (by decide) (by decide) (by decide) rfl (by decide)
    rfl (by decide)

theorem updateNodeSizeWithNewSize_store_edges (w : World) (st : St) (nodeId : String)
    (newSize : Rect) :
    (updateNodeSizeWithNewSize w st nodeId newSize).store.edges = st.store.edges := by
  simp only [updateNodeSizeWithNewSize]
  split
  · rfl
  · split <;> rfl

theorem calculateAndUpdateNodeSize_store_edges (w : World) (st : St) (nodeId : String) :
    (calculateAndUpdateNodeSize w st nodeId).store.edges = st.store.edges := by
  simp only [calculateAndUpdateNodeSize]
  repeat' split
  all_goals first
    | rfl
    | apply updateNodeSizeWithNewSize_store_edges

theorem setContentPhase_store_edges (w : World) (st : St) (remoteNode : Node)
    (b : Bool) :
    (setContentPhase w st remoteNode b).store.edges = st.store.edges := by
  simp only [setContentPhase]
  repeat' split
  all_goals first
    | rfl
    | apply calculateAndUpdateNodeSize_store_edges

theorem sizeRecalcTail_store_edges (w : World) (st : St) (remoteNode : Node) :
    (sizeRecalcTail w st remoteNode).store.edges = st.store.edges := by
  simp only [sizeRecalcTail]
  repeat' split
  all_goals rfl

theorem renderAndContentPhases_store_edges (w : World) (st3 : St) (remoteNode : Node)
    (elementFound isNodeBeingEdited isNodeSelected hasLocalChanges : Bool) :
    (renderAndContentPhases w st3 remoteNode elementFound isNodeBeingEdited
      isNodeSelected hasLocalChanges).store.edges = st3.store.edges := by
  simp only [renderAndContentPhases]
  rw [sizeRecalcTail_store_edges, setContentPhase_store_edges]
  repeat' split
  all_goals rfl

theorem hru_store_edges_none (env : Env) (w : World) (p : UpdatePayload) (st : St)
    (hpe : p.edge = none) :
    (handleRealtimeNodeUpdate env w p st).store.edges = st.store.edges := by
  simp only [handleRealtimeNodeUpdate, hpe]
  repeat' split
  all_goals first
    | rfl
    | rw [renderAndContentPhases_store_edges]

set_option maxHeartbeats 1000000 in
theorem hru_store_edges_some (env : Env) (w : World) (p : UpdatePayload) (st : St)
    (e : Edge) (hpe : p.edge = some e) :
    (handleRealtimeNodeUpdate env w p st).store.edges = st.store.edges ∨
    (handleRealtimeNodeUpdate env w p st).store.edges =
      (st.store.edges.filter (fun x =>
        decide (x.source = "" ∨ x.target = "" ∨ x.target ≠ e.target))) ++ [e] := by
  simp only [handleRealtimeNodeUpdate, hpe]
  repeat' split
  all_goals first
    | exact Or.inl rfl
    | exact Or.inr rfl
    | exact Or.inr (by rw [renderAndContentPhases_store_edges])

theorem batch_store_edges_none (env : Env) (w : World) (p : BatchPayload) (st : St)
    (hpes : p.edges = none) :
    (handleRealtimeNodesBatchUpdate env w p st).store.edges = st.store.edges := by
  simp only [handleRealtimeNodesBatchUpdate, hpes]
  repeat' split
  all_goals rfl

set_option maxHeartbeats 1000000 in
theorem batch_store_edges_some (env : Env) (w : World) (p : BatchPayload) (st : St)
    (es : List Edge) (hpes : p.edges = some es) :
    (handleRealtimeNodesBatchUpdate env w p st).store.edges = st.store.edges ∨
    (handleRealtimeNodesBatchUpdate env w p st).store.edges =
      (st.store.edges.filter (fun e2 =>
        decide (¬ ((es.map (fun e3 => e3.target)).filter
          (fun t => decide (t ≠ ""))).contains e2.target = true))) ++ es := by
  obtain ⟨r, hr⟩ : ∃ r, handleRealtimeNodesBatchUpdate env w p st = r := ⟨_, rfl⟩
  rw [hr]
  simp only [handleRealtimeNodesBatchUpdate, hpes] at hr
  by_cases h1 : p.entity_name ≠ env.entityName
  · rw [if_pos h1] at hr
    exact Or.inl (by rw [← hr])
  rw [if_neg h1] at hr
  by_cases h2 : p.modified_by = env.currentUserId
  · rw [if_pos h2] at hr
    exact Or.inl (by rw [← hr])
  rw [if_neg h2] at hr
  by_cases h3 : env.isSaving = true
  · rw [if_pos h3] at hr
    exact Or.inl (by rw [← hr])
  rw [if_neg h3] at hr
  by_cases h4 : p.nodes.isEmpty = true
  · rw [if_pos h4] at hr
    exact Or.inl (by rw [← hr])
  rw [if_neg h4] at hr
  by_cases h5 : ¬ (p.nodes.map (fun n => n.id)).isEmpty = true ∧
      ((p.nodes.map (fun n => n.id)).all (fun i =>
        decide (st.sess.editingNode = some i ∨ st.sess.selectedNode = some i))) = true
  · rw [if_pos h5] at hr
    exact Or.inl (by rw [← hr])
  rw [if_neg h5] at hr
  exact Or.inr (by rw [← hr])

/-- Single parent invariant: every target has at most one incoming edge. -/
def singleParent (es : List Edge) : Prop :=
  ∀ t, es.countP (fun e2 => decide (e2.target = t)) ≤ 1

theorem countP_filter_le (l : List Edge) (q p : Edge → Bool) :
    (l.filter q).countP p ≤ l.countP p := by
  induction l with
  | nil => simp
  | cons x xs ih =>
    rw [List.filter_cons, List.countP_cons]
    by_cases hq : q x = true
    · rw [if_pos hq, List.countP_cons]
      omega
    · rw [if_neg hq]
      omega

theorem countP_target_le_one_of_nodup (es : List Edge) (t : String)
    (h : (es.map (fun e => e.target)).Nodup) :
    es.countP (fun e2 => decide (e2.target = t)) ≤ 1 := by
  induction es with
  | nil => simp
  | cons e es ih =>
    simp only [List.map_cons, List.nodup_cons] at h
    rw [List.countP_cons]
    by_cases he : e.target = t
    · have hz : es.countP (fun e2 => decide (e2.target = t)) = 0 := by
        apply List.countP_eq_zero.mpr
        intro a ha
        simp only [decide_eq_true_eq]
        intro hat
        exact h.1 (by rw [he, ← hat]; exact List.mem_map_of_mem _ ha)
      rw [hz, if_pos (by simp [he])]
    · rw [if_neg (by simp [he])]
      rw [Nat.add_zero]
      exact ih h.2

theorem contains_of_mem_str {a : String} {l : List String} (h : a ∈ l) :
    l.contains a = true := by
  induction l with
  | nil => cases h
  | cons x xs ih =>
    cases h with
    | head => simp [List.contains_cons]
    | tail _ h2 =>
      simp [List.contains_cons]
      exact Or.inr h2

/-- C7 (amended): remote events preserve the single parent invariant under
well-formedness side conditions.  For a NodeUpdated event it suffices that the
existing store edges have nonempty endpoints; for a NodesBatchUpdated event it
suffices that the payload edges carry pairwise distinct, nonempty targets.
Without these side conditions the invariant can break (see the
counterexample). -/
theorem singleParent_preserved_amended :
    (∀ (env : Env) (w : World) (p : UpdatePayload) (st : St),
        (∀ e2 ∈ st.store.edges, e2.source ≠ "" ∧ e2.target ≠ "") →
        singleParent st.store.edges →
        singleParent (handleRealtimeNodeUpdate env w p st).store.edges) ∧
    (∀ (env : Env) (w : World) (p : BatchPayload) (st : St) (es : List Edge),
        p.edges = some es →
        (es.map (fun e3 => e3.target)).Nodup →
        (∀ e3 ∈ es, e3.target ≠ "") →
        singleParent st.store.edges →
        singleParent (handleRealtimeNodesBatchUpdate env w p st).store.edges) := by
  constructor
  · intro env w p st hwf hsp
    rcases hpe : p.edge with _ | e
    · intro t
      rw [hru_store_edges_none env w p st hpe]
      exact hsp t
    · rcases hru_store_edges_some env w p st e hpe with h | h
      · intro t
        rw [h]
        exact hsp t
      · intro t
        rw [h, List.countP_append]
        by_cases ht : e.target = t
        · have hz : ((st.store.edges.filter (fun x : Edge =>
              decide (x.source = "" ∨ x.target = "" ∨ x.target ≠ e.target))).countP
              (fun e2 : Edge => decide (e2.target = t))) = 0 := by
            apply List.countP_eq_zero.mpr
            intro a ha
            rw [List.mem_filter] at ha
            simp only [decide_eq_true_eq] at ha ⊢
            intro hat
            rcases ha.2 with h1 | h1 | h1
            · exact (hwf a ha.1).1 h1
            · exact (hwf a ha.1).2 h1
            · exact h1 (by rw [hat, ht])
          have hb : ([e].countP (fun e2 => decide (e2.target = t))) ≤ 1 := by
            rw [List.countP_cons, List.countP_nil]
            split <;> decide
          omega
        · have h0 : ([e].countP (fun e2 => decide (e2.target = t))) = 0 := by
            simp [ht]
          rw [h0, Nat.add_zero]
          exact le_trans (countP_filter_le _ _ _) (hsp t)
  · intro env w p st es hpes hnd hne hsp
    rcases batch_store_edges_some env w p st es hpes with h | h
    · intro t
      rw [h]
      exact hsp t
    · intro t
      rw [h, List.countP_append]
      by_cases ht : ∃ e3 ∈ es, e3.target = t
      · obtain ⟨e3, hm, he3⟩ := ht
        have hz : ((st.store.edges.filter (fun e2 : Edge =>
            decide (¬ ((es.map (fun e4 : Edge => e4.target)).filter
              (fun t2 : String => decide (t2 ≠ ""))).contains e2.target = true))).countP
            (fun e2 : Edge => decide (e2.target = t))) = 0 := by
          apply List.countP_eq_zero.mpr
          intro a ha
          rw [List.mem_filter] at ha
          simp only [decide_eq_true_eq] at ha ⊢
          intro hat
          apply ha.2
          apply contains_of_mem_str
          rw [List.mem_filter]
          constructor
          · rw [hat, ← he3]
            exact List.mem_map_of_mem _ hm
          · simp only [decide_eq_true_eq]
            rw [hat, ← he3]
            exact hne e3 hm
        have hb := countP_target_le_one_of_nodup es t hnd
        omega
      · push_neg at ht
        have h0 : es.countP (fun e2 => decide (e2.target = t)) = 0 :=
          List.countP_eq_zero.mpr (fun a ha => by
            simp only [decide_eq_true_eq]
            exact ht a ha)
        rw [h0, Nat.add_zero]
        exact le_trans (countP_filter_le _ _ _) (hsp t)

/-- Plain state with a single root node and no edges, nobody editing. -/
def stPlain : St :=
  { store := { nodes := [mkLNode "root" "r"], edges := [], nodeCreationOrder := [] },
    sess := { editingNode := none, selectedNode := none, editingStartTime := none,
              changedNodeIds := [] },
    renderer := rEmpty,
    snapshotCount := 0 }

/-- A batch edge payload in which two edges share the target t1. -/
def dupEdges : List Edge :=
  [{ source := "s1", target := "t1" }, { source := "s2", target := "t1" }]

def pBatchDup : BatchPayload :=
  { entity_name := "doc", modified_by := "you", nodes := [mkLNode "n3" "z"],
    edges := some dupEdges }

/-- C7 counterexample: a NodesBatchUpdated payload whose edge list repeats a
target breaks the single parent invariant, since the handler only removes
existing store edges on those targets and then appends the payload edges
unchanged. -/
theorem batchDupTargets_breaks_singleParent :
    singleParent stPlain.store.edges ∧
    ¬ singleParent (handleRealtimeNodesBatchUpdate envFix wId pBatchDup stPlain).store.edges := by
  constructor
  · intro t
    simp [stPlain]
  · intro hsp
    exact absurd (hsp "t1") (by decide)

def w7Edge : Edge := { source := "root", target := "n1" }

def pW7u : UpdatePayload :=
  { entity_name := "doc", modified_by := "you", node_id := "n1",
    node := some (mkLNode "n1" "B"), edge := some w7Edge }

def w7bEdges : List Edge := [{ source := "s1", target := "t1" }]

def pW7b : BatchPayload :=
  { entity_name := "doc", modified_by := "you", nodes := [mkLNode "n4" "q"],
    edges := some w7bEdges }

/-- Witness for the amended single parent preservation theorem at concrete
inputs. -/
theorem singleParent_preserved_amended_witness :
    (handleRealtimeNodeUpdate envFix wId pW7u stPlain).store.edges.countP
        (fun e2 => decide (e2.target = "n1")) ≤ 1 ∧
    (handleRealtimeNodesBatchUpdate envFix wId pW7b stPlain).store.edges.countP
        (fun e2 => decide (e2.target = "t1")) ≤ 1 :=
  ⟨singleParent_preserved_amended.1 envFix wId pW7u stPlain
      (by decide) (fun t => by simp [stPlain]) "n1",
   singleParent_preserved_amended.2 envFix wId pW7b stPlain w7bEdges rfl
      (by decide) (by decide) (fun t => by simp [stPlain]) "t1"⟩

/-- One directed parent to child step over an edge collection, restricted to
truthy endpoints exactly as clearChildrenPositions restricts its traversal. -/
def stepRel (es : List Edge) (a b : String) : Prop :=
  ∃ e ∈ es, e.source ≠ "" ∧ e.target ≠ "" ∧ e.source = a ∧ e.target = b

theorem mem_childTargets_iff (es : List Edge) (v b : String) :
    b ∈ childTargets es v ↔ stepRel es v b := by
  simp only [childTargets, stepRel, List.mem_map, List.mem_filter, decide_eq_true_eq]
  constructor
  · rintro ⟨e, ⟨hme, h1, h2, h3⟩, rfl⟩
    exact ⟨e, hme, h1, h2, h3, rfl⟩
  · rintro ⟨e, hme, h1, h2, h3, rfl⟩
    exact ⟨e, ⟨hme, h1, h2, h3⟩, rfl⟩

theorem mem_foldr_iff (es : List Edge) (n : Nat) (cs : List String) (x : String) :
    x ∈ cs.foldr (fun c acc => c :: (descendantsAux es n c ++ acc)) [] ↔
      ∃ c, c ∈ cs ∧ (x = c ∨ x ∈ descendantsAux es n c) := by
  induction cs with
  | nil => simp
  | cons a as ih =>
    simp only [List.foldr_cons, List.mem_cons, List.mem_append, ih]
    constructor
    · rintro (h | hx | ⟨c, hc, hx⟩)
      · exact ⟨a, Or.inl rfl, Or.inl h⟩
      · exact ⟨a, Or.inl rfl, Or.inr hx⟩
      · exact ⟨c, Or.inr hc, hx⟩
    · rintro ⟨c, hc | hc, hx⟩
      · rcases hx with rfl | hx
        · exact Or.inl hc
        · rw [hc] at hx
          exact Or.inr (Or.inl hx)
      · exact Or.inr (Or.inr ⟨c, hc, hx⟩)

theorem mem_descendantsAux_iff (es : List Edge) (n : Nat) (v x : String) :
    x ∈ descendantsAux es (n + 1) v ↔
      ∃ c, stepRel es v c ∧ (x = c ∨ x ∈ descendantsAux es n c) := by
  rw [show descendantsAux es (n + 1) v =
      (childTargets es v).foldr (fun c acc => c :: (descendantsAux es n c ++ acc)) [] from rfl]
  rw [mem_foldr_iff]
  constructor
  · rintro ⟨c, hc, hx⟩
    exact ⟨c, (mem_childTargets_iff es v c).mp hc, hx⟩
  · rintro ⟨c, hc, hx⟩
    exact ⟨c, (mem_childTargets_iff es v c).mpr hc, hx⟩

theorem descendantsAux_step (es : List Edge) (n : Nat) (v c : String)
    (h : stepRel es v c) : c ∈ descendantsAux es (n + 1) v :=
  (mem_descendantsAux_iff es n v c).mpr ⟨c, h, Or.inl rfl⟩

theorem descendantsAux_trans (es : List Edge) (n : Nat) (v c x : String)
    (hc : stepRel es v c) (hx : x ∈ descendantsAux es n c) :
    x ∈ descendantsAux es (n + 1) v :=
  (mem_descendantsAux_iff es n v x).mpr ⟨c, hc, Or.inr hx⟩

theorem chain_transGen_of_mem {α : Type} (r : α → α → Prop) :
    ∀ (l : List α) (a b : α), List.Chain r a l → b ∈ l → Relation.TransGen r a b := by
  intro l
  induction l with
  | nil =>
    intro a b _ hb
    cases hb
  | cons c rest ih =>
    intro a b hch hb
    cases hch with
    | cons hstep htail =>
      cases hb with
      | head => exact Relation.TransGen.single hstep
      | tail _ hb2 => exact Relation.TransGen.head hstep (ih c b htail hb2)

theorem chainNodup (es : List Edge)
    (hcyc : ∀ y, ¬ Relation.TransGen (stepRel es) y y) :
    ∀ (l : List String) (v : String), List.Chain (stepRel es) v l → (v :: l).Nodup := by
  intro l
  induction l with
  | nil =>
    intro v _
    simp
  | cons c rest ih =>
    intro v hch
    cases hch with
    | cons hstep htail =>
      rw [List.nodup_cons]
      refine ⟨?_, ih c htail⟩
      intro hv
      rcases List.mem_cons.mp hv with h | hv2
      · subst h
        exact hcyc v (Relation.TransGen.single hstep)
      · exact hcyc v (Relation.TransGen.head hstep
          (chain_transGen_of_mem (stepRel es) rest c v htail hv2))

theorem chainSubsetTargets (es : List Edge) :
    ∀ (l : List String) (v : String), List.Chain (stepRel es) v l →
      ∀ b ∈ l, b ∈ es.map (fun e2 => e2.target) := by
  intro l
  induction l with
  | nil =>
    intro v _ b hb
    cases hb
  | cons c rest ih =>
    intro v hch b hb
    cases hch with
    | cons hstep htail =>
      cases hb with
      | head =>
        obtain ⟨e2, hme, h1, h2, h3, h4⟩ := hstep
        rw [← h4]
        exact List.mem_map_of_mem _ hme
      | tail _ hb2 => exact ih c htail b hb2

theorem chain_getLastQ_mem (es : List Edge) :
    ∀ (l : List String) (v c : String) (fuel : Nat),
      List.Chain (stepRel es) v (c :: l) → l.length + 1 ≤ fuel →
      ∀ x, (c :: l).getLast? = some x → x ∈ descendantsAux es fuel v := by
  intro l
  induction l with
  | nil =>
    intro v c fuel hch hf x hx
    rw [List.getLast?_singleton] at hx
    cases hx
    cases hch with
    | cons hstep _ =>
      obtain ⟨f2, rfl⟩ : ∃ f2, fuel = f2 + 1 := ⟨fuel - 1, by omega⟩
      exact descendantsAux_step es f2 v c hstep
  | cons d rest ih =>
    intro v c fuel hch hf x hx
    cases hch with
    | cons hstep htail =>
      obtain ⟨f2, rfl⟩ : ∃ f2, fuel = f2 + 1 := ⟨fuel - 1, by omega⟩
      rw [List.getLast?_cons_cons] at hx
      have hm := ih c d f2 htail (by simp at hf ⊢; omega) x hx
      exact descendantsAux_trans es f2 v c x hstep hm

theorem reach_mem_descend (es : List Edge) (v x : String)
    (hcyc : ∀ y, ¬ Relation.TransGen (stepRel es) y y)
    (h : Relation.ReflTransGen (stepRel es) v x) :
    x = v ∨ x ∈ descendantsAux es es.length v := by
  obtain ⟨l, hch, hlast⟩ := List.exists_chain_of_relationReflTransGen h
  cases l with
  | nil =>
    left
    simpa using hlast.symm
  | cons c rest =>
    right
    have hnd := chainNodup es hcyc (c :: rest) v hch
    have hsub := chainSubsetTargets es (c :: rest) v hch
    have hlen : (c :: rest).length ≤ es.length := by
      have h1 : (c :: rest).Nodup := (List.nodup_cons.mp hnd).2
      have h2 := (List.Nodup.subperm h1 hsub).length_le
      rw [List.length_map] at h2
      exact h2
    have hx : (c :: rest).getLast? = some x := by
      rw [List.getLast?_eq_getLast (c :: rest) (by simp)]
      rw [List.getLast_cons (by simp : c :: rest ≠ [])] at hlast
      exact congrArg some hlast
    exact chain_getLastQ_mem es rest v c es.length hch (by simpa using hlen) x hx

theorem safeRenderR_positions (w : World) (sess : Session) (r : Renderer) (force : Bool) :
    ((safeRenderR w sess r force).1).positions = r.positions := by
  simp only [safeRenderR, renderStep]
  repeat' split
  all_goals rfl

theorem d3UpdateBlock_positions (r : Renderer) (un : Node) (editing selected : Option String)
    (changed : List String) :
    (d3UpdateBlock r un editing selected changed).positions = r.positions := by
  simp only [d3UpdateBlock]
  repeat' split
  all_goals rfl

theorem updateNodeSizeWithNewSize_positions_none (w : World) (st : St) (nodeId : String)
    (newSize : Rect) (x : String) (h : mapGet st.renderer.positions x = none) :
    mapGet (updateNodeSizeWithNewSize w st nodeId newSize).renderer.positions x = none := by
  simp only [updateNodeSizeWithNewSize]
  split
  · exact h
  split
  · exact mapGet_mapDelete_none _ _ _ h
  · rw [safeRenderR_positions]
    exact mapGet_mapDelete_none _ _ _ h

theorem calculateAndUpdateNodeSize_positions_none (w : World) (st : St) (nodeId : String)
    (x : String) (h : mapGet st.renderer.positions x = none) :
    mapGet (calculateAndUpdateNodeSize w st nodeId).renderer.positions x = none := by
  simp only [calculateAndUpdateNodeSize]
  repeat' split
  all_goals first
    | exact h
    | exact updateNodeSizeWithNewSize_positions_none _ _ _ _ _ h

theorem setContentPhase_positions_none (w : World) (st : St) (remoteNode : Node)
    (b : Bool) (x : String) (h : mapGet st.renderer.positions x = none) :
    mapGet (setContentPhase w st remoteNode b).renderer.positions x = none := by
  simp only [setContentPhase]
  repeat' split
  all_goals first
    | exact h
    | exact calculateAndUpdateNodeSize_positions_none _ _ _ _ h

theorem sizeRecalcTail_positions_none (w : World) (st : St) (remoteNode : Node)
    (x : String) (h : mapGet st.renderer.positions x = none) :
    mapGet (sizeRecalcTail w st remoteNode).renderer.positions x = none := by
  simp only [sizeRecalcTail]
  repeat' split
  all_goals first
    | exact h
    | exact mapGet_mapDelete_none _ _ _ h
    | (rw [safeRenderR_positions]; exact mapGet_mapDelete_none _ _ _ h)

theorem renderAndContentPhases_positions_none (w : World) (st3 : St) (remoteNode : Node)
    (elementFound isNodeBeingEdited isNodeSelected hasLocalChanges : Bool) (x : String)
    (h : mapGet st3.renderer.positions x = none) :
    mapGet (renderAndContentPhases w st3 remoteNode elementFound isNodeBeingEdited
      isNodeSelected hasLocalChanges).renderer.positions x = none := by
  simp only [renderAndContentPhases]
  apply sizeRecalcTail_positions_none
  apply setContentPhase_positions_none
  repeat' split
  all_goals first
    | exact h
    | (rw [safeRenderR_positions]; exact h)

/-- The edge replacement performed for an edge carrying NodeUpdated event:
all prior edges on the new target are dropped (blank endpoint edges are
kept) and the new edge is appended, as in the source handler. -/
def reparentedEdges (old : List Edge) (e : Edge) : List Edge :=
  (old.filter (fun x => x.source = "" ∨ x.target = "" ∨ x.target ≠ e.target)) ++ [e]

set_option maxHeartbeats 1000000 in
/-- C5 (amended): an edge carrying NodeUpdated event that passes the guards
and is not suppressed by an active local edit of the updated node clears the
position cache entry of the edge target and of every node reachable from it
through the post event edge collection, transitively, provided that
collection is acyclic. -/
theorem subtreePositions_invalidated_amended
    (env : Env) (w : World) (p : UpdatePayload) (st : St) (rn : Node) (e : Edge)
    (h1 : p.entity_name = env.entityName)
    (h2 : ¬ p.modified_by = env.currentUserId)
    (h3 : ¬ (env.isSaving = true ∧ st.sess.editingNode = some p.node_id))
    (hn : p.node = some rn)
    (he : p.edge = some e)
    (hT : e.target = rn.id)
    (hedit : ¬ st.sess.editingNode = some rn.id)
    (hcyc : ∀ y, ¬ Relation.TransGen (stepRel (reparentedEdges st.store.edges e)) y y) :
    ∀ x, Relation.ReflTransGen (stepRel (reparentedEdges st.store.edges e)) e.target x →
      mapGet (handleRealtimeNodeUpdate env w p st).renderer.positions x = none := by
  intro x hreach
  have hxmem : x ∈ rn.id :: descendantsAux (reparentedEdges st.store.edges e)
      (reparentedEdges st.store.edges e).length rn.id := by
    rcases reach_mem_descend _ _ _ hcyc (hT ▸ hreach) with h | h
    · exact h ▸ List.mem_cons_self _ _
    · exact List.mem_cons_of_mem _ h
  have hcont := contains_of_mem_str hxmem
  simp only [handleRealtimeNodeUpdate, hn, he]
  rw [if_neg (fun hh => hh h1), if_neg h2, if_neg h3]
  have hfalse : decide (st.sess.editingNode = some rn.id) = false := decide_eq_false hedit
  rw [hfalse]
  simp only [Bool.false_eq_true, false_and, if_false]
  rw [if_neg hedit]
  apply renderAndContentPhases_positions_none
  dsimp only
  rw [d3UpdateBlock_positions]
  dsimp only
  apply mapGet_filter_none
  intro q hq hqx
  rw [hqx]
  exact decide_eq_false (fun hno => hno hcont)

def posC5 : List (String × Pos) := [("n1", { x := 5, y := 6 }), ("c1", { x := 1, y := 2 })]

def c5Nodes : List Node := [mkLNode "root" "r", mkLNode "n1" "A", mkLNode "c1" "C"]

def c5Edges : List Edge :=
  [{ source := "root", target := "n1" }, { source := "n1", target := "c1" }]

/-- State in which n1 is under active local edit with unsaved changes and has
cached positions for itself and its child c1. -/
def stC5 : St :=
  { store := { nodes := c5Nodes, edges := c5Edges, nodeCreationOrder := [] },
    sess := { editingNode := some "n1", selectedNode := none, editingStartTime := some 0,
              changedNodeIds := ["n1"] },
    renderer := { rEmpty with nodes := c5Nodes, edges := c5Edges, positions := posC5 },
    snapshotCount := 0 }

/-- Re-parenting payload moving n1 under r2 while n1 is being edited. -/
def pC5 : UpdatePayload :=
  { entity_name := "doc", modified_by := "you", node_id := "n1",
    node := some (mkLNode "n1" "B"), edge := some { source := "r2", target := "n1" } }

/-- C5 counterexample: an edge carrying NodeUpdated event arriving while its
target node is under active local edit with unsaved changes takes the
suppressed early return and leaves both the target position entry and the
descendant position entry in place, so the invalidation is not independent of
the edit state. -/
theorem edgeEvent_under_edit_keeps_stale_positions :
    pC5.edge.isSome = true ∧
    mapGet (handleRealtimeNodeUpdate envFix wId pC5 stC5).renderer.positions "n1" =
      some { x := 5, y := 6 } ∧
    mapGet (handleRealtimeNodeUpdate envFix wId pC5 stC5).renderer.positions "c1" =
      some { x := 1, y := 2 } := by
  decide

def w5Edge : Edge := { source := "root", target := "n1" }

def posW5 : List (String × Pos) := [("n1", { x := 5, y := 6 })]

def w5Nodes : List Node := [mkLNode "root" "r", mkLNode "n1" "A"]

def stW5 : St :=
  { store := { nodes := w5Nodes, edges := [], nodeCreationOrder := [] },
    sess := { editingNode := none, selectedNode := none, editingStartTime := none,
              changedNodeIds := [] },
    renderer := { rEmpty with nodes := w5Nodes, positions := posW5 },
    snapshotCount := 0 }

def pW5 : UpdatePayload :=
  { entity_name := "doc", modified_by := "you", node_id := "n1",
    node := some (mkLNode "n1" "B"), edge := some w5Edge }

theorem w5_acyclic :
    ∀ y, ¬ Relation.TransGen (stepRel (reparentedEdges stW5.store.edges w5Edge)) y y := by
  have hstep : ∀ a b, stepRel (reparentedEdges stW5.store.edges w5Edge) a b →
      (if a = "n1" then 1 else 0) < (if b = "n1" then 1 else 0 : Nat) := by
    rintro a b ⟨e2, hme, hs, ht, hsa, htb⟩
    have he2 : e2 = w5Edge := by
      simpa [reparentedEdges, stW5] using hme
    subst he2
    rw [← hsa, ← htb]
    decide
  intro y hy
  have hmono : ∀ a b,
      Relation.TransGen (stepRel (reparentedEdges stW5.store.edges w5Edge)) a b →
      (if a = "n1" then 1 else 0) < (if b = "n1" then 1 else 0 : Nat) := by
    intro a b h
    induction h with
    | single hs => exact hstep _ _ hs
    | tail hab hbc ih => exact lt_trans ih (hstep _ _ hbc)
  exact lt_irrefl _ (hmono y y hy)

/-- Witness for the amended subtree invalidation theorem at concrete inputs:
the target node had a cached position and it is gone after the event. -/
theorem subtreePositions_invalidated_amended_witness :
    mapGet (handleRealtimeNodeUpdate envFix wId pW5 stW5).renderer.positions "n1" = none :=
  subtreePositions_invalidated_amended envFix wId pW5 stW5 (mkLNode "n1" "B") w5Edge
    rfl (by decide) (by decide) rfl rfl rfl (by decide) w5_acyclic
    "n1" Relation.ReflTransGen.refl

end Mindmap
